import Mathlib

/-!
Verification of the bcx_comic_lister core: shallow embedding of the
key-normalization layer (`src/core/image_allocator.py`), the CLZ catalog
parser (`src/core/clz_parser.py`), the image allocator, the eBay CSV
workflow grouping logic (`src/workflows/ebay_csv_workflow.py`), and the
row assembler / writers (`src/core/ebay_writer.py`,
`src/core/failure_writer.py`).

Strings are modelled at the character-list level with ASCII semantics for
case conversion, whitespace and character classes (the Python source
applies the same operations over Unicode; every string the claims exercise
is ASCII).  File and network I/O is out of scope: the writers are modelled
as pure functions from already-parsed CSV rows to the tables they emit.
-/

namespace BCX

/-- Python `\s` whitespace class, ASCII part: space, tab, LF, CR, VT, FF. -/
def isPyWs (c : Char) : Bool :=
  c = ' ' || c = '\t' || c = '\n' || c = '\r' || c = '\x0b' || c = '\x0c'

def isAsciiDigit (c : Char) : Bool := '0' ≤ c && c ≤ '9'

def isAsciiLower (c : Char) : Bool := 'a' ≤ c && c ≤ 'z'

def isAsciiUpper (c : Char) : Bool := 'A' ≤ c && c ≤ 'Z'

def isAsciiLetter (c : Char) : Bool := isAsciiLower c || isAsciiUpper c

/-- Python `str.lower`, ASCII model. -/
def pyLowerChar (c : Char) : Char :=
  if isAsciiUpper c then Char.ofNat (c.toNat + 32) else c

/-- Python `str.upper`, ASCII model. -/
def pyUpperChar (c : Char) : Char :=
  if isAsciiLower c then Char.ofNat (c.toNat - 32) else c

/-- Python `str.strip()` on a character list: drop leading and trailing
whitespace. -/
def trimWs (l : List Char) : List Char :=
  ((l.dropWhile isPyWs).reverse.dropWhile isPyWs).reverse

/-- Replace each maximal run of whitespace by a single space:
`re.sub(r"\s+", " ", s)`. -/
def collapseWs : List Char → List Char
  | [] => []
  | [c] => if isPyWs c then [' '] else [c]
  | c1 :: c2 :: rest =>
      if isPyWs c1 && isPyWs c2 then collapseWs (c2 :: rest)
      else (if isPyWs c1 then ' ' else c1) :: collapseWs (c2 :: rest)

def pyLower (s : String) : String := ⟨s.data.map pyLowerChar⟩

def pyUpper (s : String) : String := ⟨s.data.map pyUpperChar⟩

def pyStrip (s : String) : String := ⟨trimWs s.data⟩

/-- Split a character list at every occurrence of `sep`
(Python `str.split(sep)` keeps empty pieces; callers filter them). -/
def splitOnCharAux (sep : Char) (cur : List Char) : List Char → List (List Char)
  | [] => [cur.reverse]
  | c :: rest =>
      if c = sep then cur.reverse :: splitOnCharAux sep [] rest
      else splitOnCharAux sep (c :: cur) rest

def splitOnChar (sep : Char) (l : List Char) : List (List Char) :=
  splitOnCharAux sep [] l

/-- Digits of a token read as a natural number (the tokens the source feeds
here are guaranteed nonempty digit runs). -/
def digitsToNat (l : List Char) : Nat :=
  l.foldl (fun a c => 10 * a + (c.toNat - '0'.toNat)) 0

/-- Lexicographic comparison by code point — Python's `<` on strings. -/
def charListLt : List Char → List Char → Bool
  | [], [] => false
  | [], _ :: _ => true
  | _ :: _, [] => false
  | a :: as, b :: bs => if a < b then true else if b < a then false else charListLt as bs

def strLt (s t : String) : Bool := charListLt s.data t.data

/-- Python `"|".join` / `" ".join` -style joining. -/
def joinWith (sep : String) : List String → String
  | [] => ""
  | [x] => x
  | x :: xs => x ++ sep ++ joinWith sep xs

/-!
## Key Normalizer (`src/core/image_allocator.py`, lines 147-225)
-/

/-- Keep characters matching `[a-z0-9\s]` case-insensitively — the
complement of what `_NON_ALNUM_RE` deletes. -/
def keepSeriesChar (c : Char) : Bool :=
  isAsciiLower c || isAsciiUpper c || isAsciiDigit c || isPyWs c

def normalizeSeriesChars (l : List Char) : List Char :=
  if l = [] then []
  else
    trimWs (collapseWs (List.filter keepSeriesChar
      ((l.map pyLowerChar).map (fun c => if c = '_' || c = '-' then ' ' else c))))

/-- `normalize_series` (image_allocator.py:154): lower-case, `_`/`-` to
space, strip non-alphanumeric-non-space, collapse whitespace, trim. -/
def normalize_series (s : String) : String := ⟨normalizeSeriesChars s.data⟩

/-- `_ISSUE_RE = ^(\d+)([a-zA-Z]*)$`; `parse_issue_token`
(image_allocator.py:168) returns the number and the upper-cased letter
suffix, or `none` when the token does not match. -/
def parse_issue_token (tok : List Char) : Option (Nat × String) :=
  let digs := tok.takeWhile isAsciiDigit
  let rest := tok.dropWhile isAsciiDigit
  if digs ≠ [] && rest.all isAsciiLetter then
    some (digitsToNat digs, ⟨rest.map pyUpperChar⟩)
  else none

/-- `_VOL_TOKEN_RE = ^v(\d+)$` (case-insensitive): the volume value when
the token is a volume marker. -/
def volTokenValue (tok : List Char) : Option Nat :=
  match tok with
  | c :: rest =>
      if (c = 'v' || c = 'V') && rest ≠ [] && rest.all isAsciiDigit then
        some (digitsToNat rest)
      else none
  | [] => none

/-- `_YEAR_TOKEN_RE = ^(19\d{2}|20\d{2})$`. -/
def isYearToken (tok : List Char) : Bool :=
  match tok with
  | [a, b, c, d] =>
      ((a = '1' && b = '9') || (a = '2' && b = '0')) && isAsciiDigit c && isAsciiDigit d
  | _ => false

/-- `pathlib.PurePath.stem`: final `/`-separated component without its last
suffix (a suffix needs a dot that is neither the first nor the last
character of the name). -/
def pathStem (l : List Char) : List Char :=
  let name := (splitOnChar '/' l).getLastD []
  let rev := name.reverse
  let afterDot := rev.takeWhile (fun c => c ≠ '.')
  let rest := rev.dropWhile (fun c => c ≠ '.')
  match rest with
  | [] => name
  | _ :: beforeRev => if beforeRev ≠ [] && afterDot ≠ [] then beforeRev.reverse else name

/-- Underscore tokens of the filename stem, empties dropped
(image_allocator.py:191). -/
def imageParts (file_path : String) : List (List Char) :=
  (splitOnChar '_' (pathStem file_path.data)).filter (fun p => p ≠ [])

/-- `parse_image_filename` (image_allocator.py:175): canonical filename
parser producing `(series_norm, volume, issue_number, issue_suffix)`. -/
def parse_image_filename (file_path : String) : Option (String × Nat × Nat × String) :=
  let name := pathStem file_path.data
  if name = [] then none
  else
    let parts := (splitOnChar '_' name).filter (fun p => p ≠ [])
    if parts.length < 2 then none
    else
      let volIdx? := parts.findIdx? (fun p => (volTokenValue p).isSome)
      let volume := match volIdx? with
        | some i => (volTokenValue (parts.getD i [])).getD 1
        | none => 1
      let issueIdx := match volIdx? with
        | some i => i + 1
        | none => parts.length - 1
      if issueIdx ≥ parts.length then none
      else
        match parse_issue_token (parts.getD issueIdx []) with
        | none => none
        | some (issueNumber, issueSuffix) =>
            let seriesTokens := match volIdx? with
              | some i => parts.take i
              | none => parts.dropLast
            let seriesTokens := seriesTokens.filter (fun t => ¬ isYearToken t)
            if seriesTokens = [] then none
            else
              let seriesRaw := joinWith " " (seriesTokens.map (fun t => (⟨t⟩ : String)))
              some (normalize_series seriesRaw, volume, issueNumber, issueSuffix)

/-!
## Data model (`src/core/image_allocator.py`, lines 14-141)
-/

/-- `ComicRecord` dataclass: the canonical comic record shared by both
workflows.  `clz_row` preserves the original raw CSV row (`None` → `none`). -/
structure ComicRecord where
  id : Nat
  series_raw : String
  series_norm : String
  volume : Nat
  issue_number : Nat
  issue_suffix : String := ""
  raw_title : String := ""
  clz_row : Option (List String) := none
  publisher : String := ""
  release_year : String := ""
  publication_year : String := ""
  grade : String := ""
  era : String := ""
  «universe» : String := ""
  cover_artist : String := ""
  characters : String := ""
  value : String := ""
  status : String := "PENDING"
  failure_reason : String := ""
  allocated_image_ids : List String := []
  image_url : String := ""
  unused_image_urls : String := ""
  title_suffix : String := ""
deriving DecidableEq, Inhabited

/-- `ImageAsset` dataclass. -/
structure ImageAsset where
  id : String
  filename : String
  path : String
  series_norm : String
  volume : Nat
  issue_number : Nat
  issue_suffix : String := ""
  used : Bool := false
deriving DecidableEq, Inhabited

/-- `AllocationResult` dataclass.  The two Python dicts are modelled as
insertion-ordered association lists. -/
structure AllocationResult where
  matched : List ComicRecord
  failed : List ComicRecord
  ledger_image_to_comic : List (String × Nat)
  ledger_comic_to_images : List (Nat × List String)
  images : List ImageAsset
deriving DecidableEq

/-- `ComicRecord.with_image` (image_allocator.py:56): copy marked MATCHED. -/
def withImage (c : ComicRecord) (imageUrl titleSuffix : String) : ComicRecord :=
  { c with status := "MATCHED", image_url := imageUrl, title_suffix := titleSuffix }

/-- `ComicRecord.with_failure` (image_allocator.py:65): copy marked FAILED
(`reason or "UNKNOWN"`). -/
def withFailure (c : ComicRecord) (reason unusedUrls : String) : ComicRecord :=
  { c with status := "FAILED",
           failure_reason := if reason = "" then "UNKNOWN" else reason,
           unused_image_urls := unusedUrls }

/-!
## Allocator (`src/core/image_allocator.py`, lines 251-301)

Python mutates shared asset objects through per-key buckets.  We model the
asset store as a list whose `used` flags are updated by position; a bucket
is the (statically determined) list of positions holding a given key, in
the order Python's stable in-bucket sort produces: by
`(issue_suffix, filename.lower())`, ties broken by original position.
-/

def comicKey (c : ComicRecord) : String × Nat × Nat :=
  (c.series_norm, c.volume, c.issue_number)

def assetKey (a : ImageAsset) : String × Nat × Nat :=
  (a.series_norm, a.volume, a.issue_number)

/-- Total order on bucket positions mirroring
`bucket.sort(key=lambda x: (x.issue_suffix, x.filename.lower()))`; the
position tiebreak makes it reproduce Python's stable sort exactly. -/
def bucketLe (images : List ImageAsset) (i j : Nat) : Prop :=
  let a := images.getD i default
  let b := images.getD j default
  strLt a.issue_suffix b.issue_suffix = true ∨
    (a.issue_suffix = b.issue_suffix ∧
      (strLt (pyLower a.filename) (pyLower b.filename) = true ∨
        (pyLower a.filename = pyLower b.filename ∧ i ≤ j)))

instance (images : List ImageAsset) : DecidableRel (bucketLe images) :=
  fun i j => by unfold bucketLe; exact inferInstance

/-- Positions of the assets holding `key`, in input order
(`buckets.setdefault(key, []).append(img)`). -/
def bucketIndices (images : List ImageAsset) (key : String × Nat × Nat) : List Nat :=
  (List.range images.length).filter (fun i => assetKey (images.getD i default) = key)

/-- The bucket for `key` after the deterministic in-bucket sort. -/
def sortedBucket (images : List ImageAsset) (key : String × Nat × Nat) : List Nat :=
  (bucketIndices images key).insertionSort (bucketLe images)

/-- Scan the bucket for the first unused asset (image_allocator.py:276).
`images0` fixes the buckets (computed before the loop); `cur` carries the
current `used` flags. -/
def findUnusedIndex (images0 cur : List ImageAsset) (key : String × Nat × Nat) :
    Option Nat :=
  (sortedBucket images0 key).find? (fun i => !(cur.getD i default).used)

structure AllocState where
  images : List ImageAsset
  matched : List ComicRecord
  failed : List ComicRecord
  ledger_image_to_comic : List (String × Nat)
  ledger_comic_to_images : List (Nat × List String)
deriving DecidableEq

/-- Python dict assignment `d[k] = v`: update in place when the key exists,
append otherwise. -/
def dictInsert {V : Type} (d : List (String × V)) (k : String) (v : V) :
    List (String × V) :=
  if d.any (fun p => p.1 = k) then
    d.map (fun p => if p.1 = k then (k, v) else p)
  else d ++ [(k, v)]

/-- `ledger_comic_to_images.setdefault(comic.id, []).append(chosen.id)`. -/
def ledgerAppend (d : List (Nat × List String)) (k : Nat) (v : String) :
    List (Nat × List String) :=
  if d.any (fun p => p.1 = k) then
    d.map (fun p => if p.1 = k then (p.1, p.2 ++ [v]) else p)
  else d ++ [(k, [v])]

/-- One iteration of the allocation loop (image_allocator.py:271-293). -/
def allocStep (images0 : List ImageAsset) (st : AllocState) (comic : ComicRecord) :
    AllocState :=
  match findUnusedIndex images0 st.images (comicKey comic) with
  | none =>
      { st with failed := st.failed ++
          [{ comic with status := "FAILED", failure_reason := "NO_MATCHING_IMAGE" }] }
  | some i =>
      let chosen := st.images.getD i default
      { images := st.images.set i { chosen with used := true },
        matched := st.matched ++
          [{ comic with status := "MATCHED",
                        allocated_image_ids := comic.allocated_image_ids ++ [chosen.id] }],
        failed := st.failed,
        ledger_image_to_comic := dictInsert st.ledger_image_to_comic chosen.id comic.id,
        ledger_comic_to_images := ledgerAppend st.ledger_comic_to_images comic.id chosen.id }

/-- `allocate_images` (image_allocator.py:251): Workflow A allocator. -/
def allocate_images (comics : List ComicRecord) (images : List ImageAsset) :
    AllocationResult :=
  let fin := comics.foldl (allocStep images) ⟨images, [], [], [], []⟩
  ⟨fin.matched, fin.failed, fin.ledger_image_to_comic, fin.ledger_comic_to_images,
    fin.images⟩

/-!
## Volume-phrase regular expressions

`clz_parser.py` and `ebay_writer.py` strip `vol`/`vol.` phrases with
`re.sub` patterns of the shape `[<puncts>]*\s*\bvol\.?\s*\d+\b` and read
the volume number with `\bvol\.?\s*(\d+)\b` (all `IGNORECASE`).  The
scanner below reproduces Python's leftmost non-overlapping match semantics
for these concrete patterns; `\b` uses the ASCII word class `[A-Za-z0-9_]`.
-/

def isWordChar (c : Char) : Bool := isAsciiLetter c || isAsciiDigit c || c = '_'

/-- Match `vol\.?\s*\d+\b` at the head of `l`, with a word boundary before
the initial letter (`prevWord` = the preceding character is a word
character).  Returns the consumed length and the digit value. -/
def matchVolCore (prevWord : Bool) (l : List Char) : Option (Nat × Nat) :=
  if prevWord then none
  else
    match l with
    | v :: o :: lc :: rest =>
        if pyLowerChar v = 'v' && pyLowerChar o = 'o' && pyLowerChar lc = 'l' then
          let (dotLen, r1) : Nat × List Char :=
            match rest with
            | '.' :: r => (1, r)
            | r => (0, r)
          let ws := r1.takeWhile isPyWs
          let r2 := r1.dropWhile isPyWs
          let digs := r2.takeWhile isAsciiDigit
          let r3 := r2.dropWhile isAsciiDigit
          if digs ≠ [] &&
              (match r3 with
               | [] => true
               | c :: _ => ¬ isWordChar c) then
            some (3 + dotLen + ws.length + digs.length, digitsToNat digs)
          else none
        else none
    | _ => none

/-- `_VOL_RE.search` (clz_parser.py:28): the first `\bvol\.?\s*(\d+)\b`
match, scanning left to right. -/
def searchVolAux : Bool → List Char → Option Nat
  | _, [] => none
  | prevWord, c :: rest =>
      match matchVolCore prevWord (c :: rest) with
      | some (_, n) => some n
      | none => searchVolAux (isWordChar c) rest

def searchVol (l : List Char) : Option Nat := searchVolAux false l

/-- `re.sub(r"[<puncts>]*\s*\bvol\.?\s*\d+\b", "", s)`.  Fuel-driven so the
definition is structurally recursive; one unit of fuel per input character
is enough because every step consumes at least one character. -/
def stripVolAux (puncts : List Char) : Nat → Bool → List Char → List Char
  | 0, _, l => l
  | fuel + 1, prevWord, l =>
      match l with
      | [] => []
      | c :: rest =>
          let p := l.takeWhile (fun x => x ∈ puncts)
          let r1 := l.dropWhile (fun x => x ∈ puncts)
          let w := r1.takeWhile isPyWs
          let r2 := r1.dropWhile isPyWs
          let pw := (p ++ w).length
          let bnd := if pw = 0 then prevWord else false
          match matchVolCore bnd r2 with
          | some (n, _) => stripVolAux puncts fuel true (l.drop (pw + n))
          | none => c :: stripVolAux puncts fuel (isWordChar c) rest

def stripVolPhrases (puncts : List Char) (l : List Char) : List Char :=
  stripVolAux puncts l.length false l

/-!
## Catalog Row Parser (`src/core/clz_parser.py`)
-/

/-- `_parse_series_and_volume` (clz_parser.py:32): extract the volume from
the first `vol`/`vol.` phrase (default 1) and strip `[,()]*\s*\bvol\.?\s*\d+\b`
phrases from the display series text. -/
def parseSeriesAndVolume (seriesRaw : String) : String × Nat :=
  if seriesRaw = "" then ("", 1)
  else
    let volume := (searchVol seriesRaw.data).getD 1
    let s1 := trimWs (stripVolPhrases [',', '(', ')'] seriesRaw.data)
    let s2 := trimWs (collapseWs s1)
    (⟨s2⟩, volume)

/-- `_parse_issue` (clz_parser.py:46): `_ISSUE_RE = #?\s*(\d+)\s*([A-Za-z]?)`,
searched in the stripped cell.  The leftmost match captures the first digit
run and the optional single letter following it (whitespace allowed in
between); no digit anywhere means no match. -/
def parseIssueCell (issueRaw : String) : Option Nat × String :=
  if issueRaw = "" then (none, "")
  else
    let l := trimWs issueRaw.data
    let rest := l.dropWhile (fun c => ¬ isAsciiDigit c)
    if rest = [] then (none, "")
    else
      let digs := rest.takeWhile isAsciiDigit
      let r2 := (rest.dropWhile isAsciiDigit).dropWhile isPyWs
      let suffix : String :=
        match r2 with
        | c :: _ => if isAsciiLetter c then ⟨[pyUpperChar c]⟩ else ""
        | [] => ""
      (some (digitsToNat digs), suffix)

/-- Column lookup `{h.strip(): i for i, h in enumerate(header)}`: a Python
dict comprehension keeps the LAST index for duplicated names. -/
def colIndex (header : List String) (name : String) : Option Nat :=
  ((List.range header.length).filter
    (fun i => pyStrip (header.getD i "") = name)).getLast?

/-- `_safe_cell` (clz_parser.py:59). -/
def safeCell (header row : List String) (name : String) : String :=
  match colIndex header name with
  | none => ""
  | some i => if i < row.length then pyStrip (row.getD i "") else ""

/-- `_safe_cell_by_index` (clz_parser.py:68). -/
def safeCellByIndex (row header : List String) (idx0 : Nat) (expected : String) :
    String :=
  if idx0 < header.length && idx0 < row.length then
    if pyStrip (header.getD idx0 "") = expected then pyStrip (row.getD idx0 "")
    else ""
  else ""

/-- `not any((cell or "").strip() for cell in row)` (clz_parser.py:109). -/
def rowIsBlank (row : List String) : Bool :=
  row.all (fun cell => pyStrip cell = "")

/-- One iteration of the `load_clz_csv` row loop (clz_parser.py:108-181):
build the `ComicRecord` for a (non-blank) raw row. -/
def buildComic (idn : Nat) (header row : List String) : ComicRecord :=
  let series_raw := safeCell header row "Series"
  let issue_raw := safeCell header row "Issue Nr"
  let sv := parseSeriesAndVolume series_raw
  let series_clean := sv.1
  let volume := sv.2
  let pi := parseIssueCell issue_raw
  let variant_val := pyUpper (safeCell header row "Variant")
  let title_val := safeCell header row "Title"
  let publisher_val := safeCell header row "Publisher"
  let characters_val := safeCell header row "Characters"
  let cover_artist_val := safeCell header row "Cover Artist"
  let grade_val := safeCell header row "Grade"
  let release_year_val := safeCell header row "Release Year"
  let era_val := safeCell header row "Era"
  let universe_val := safeCell header row "Universe"
  let value_val0 := safeCellByIndex row header 8 "Value"
  let value_val := if value_val0 = "" then safeCell header row "Value" else value_val0
  match pi.1 with
  | none =>
      { id := idn, series_raw := series_clean,
        series_norm := normalize_series series_clean, volume := volume,
        issue_number := 0, issue_suffix := "", raw_title := title_val,
        clz_row := some row, status := "FAILED",
        failure_reason := "UNPARSEABLE_ISSUE", publisher := publisher_val,
        release_year := release_year_val, grade := grade_val,
        characters := characters_val, cover_artist := cover_artist_val,
        value := value_val, era := era_val, «universe» := universe_val }
  | some n =>
      { id := idn, series_raw := series_clean,
        series_norm := normalize_series series_clean, volume := volume,
        issue_number := n,
        issue_suffix := if variant_val = "" then pi.2 else variant_val,
        raw_title := title_val, clz_row := some row,
        publisher := publisher_val, release_year := release_year_val,
        grade := grade_val, characters := characters_val,
        cover_artist := cover_artist_val, value := value_val, era := era_val,
        «universe» := universe_val }

/-- `load_clz_csv` record construction: blank rows are skipped, ids count
the records built so far plus one. -/
def load_clz_comics (header : List String) (rows : List (List String)) :
    List ComicRecord :=
  ((rows.filter (fun r => ¬ rowIsBlank r)).enum).map
    (fun p => buildComic (p.1 + 1) header p.2)

/-!
## eBay CSV workflow grouping (`src/workflows/ebay_csv_workflow.py`)
-/

/-- Hosted image entry `{"url": url, "variant": variant}`. -/
structure HostedImage where
  url : String
  variant : String
deriving DecidableEq, Inhabited

/-- `_select_images_for_group` (ebay_csv_workflow.py:35).  Python's
`len(set(variants)) != len(variants)` duplicate test is the complement of
`List.Nodup`. -/
def selectImagesForGroup (images : List HostedImage) (groupSize : Nat) :
    Option (List HostedImage) :=
  if groupSize = 0 then none
  else if images = [] then none
  else if groupSize = 1 then
    -- `[images[0]]` / `[a_imgs[0]]`: `take 1` of the nonempty list in scope.
    if images.length = 1 then some (images.take 1)
    else
      let aImgs := images.filter (fun im => pyUpper im.variant = "A")
      if aImgs.length = 1 then some (aImgs.take 1) else none
  else if images.length < groupSize then none
  else
    let selected := images.take groupSize
    let variants := selected.map (fun im => pyUpper im.variant)
    if variants.contains "" then none
    else if ¬ variants.Nodup then none
    else some selected

/-- Stable sort of a key's images by variant
(`images_by_key[key].sort(key=lambda x: x["variant"] or "")`,
ebay_csv_workflow.py:90); the position tiebreak reproduces stability. -/
def imageSortLe (p q : Nat × HostedImage) : Prop :=
  strLt p.2.variant q.2.variant = true ∨ (p.2.variant = q.2.variant ∧ p.1 ≤ q.1)

instance : DecidableRel imageSortLe :=
  fun p q => by unfold imageSortLe; exact inferInstance

def sortImagesByVariant (images : List HostedImage) : List HostedImage :=
  (images.enum.insertionSort imageSortLe).map Prod.snd

/-- One iteration of the group-allocation loop
(ebay_csv_workflow.py:113-131): given the URLs already used by earlier
groups, the group's records and the (sorted) image pool of its key, return
the eBay rows, the failed rows and the updated used-URL set (the Python
`set` is modelled as a duplicate-free list). -/
def processGroup (usedUrls : List String) (group : List ComicRecord)
    (images : List HostedImage) :
    List ComicRecord × List ComicRecord × List String :=
  match selectImagesForGroup images group.length with
  | some selected =>
      let multi := decide (group.length > 1)
      let pairs := group.zip selected
      (pairs.map (fun pr =>
          let v := pyUpper pr.2.variant
          let suffix := if multi && v ≠ "" then "Cvr " ++ v else ""
          withImage pr.1 pr.2.url suffix),
       [],
       pairs.foldl (fun acc pr =>
          if acc.contains pr.2.url then acc else acc ++ [pr.2.url]) usedUrls)
  | none =>
      let unused := (images.filter (fun im => ¬ usedUrls.contains im.url)).map
        (fun im => im.url)
      let unusedStr := joinWith "|" unused
      ([],
       group.map (fun c => withFailure c "No safe image variant match" unusedStr),
       usedUrls)

/-!
## Row Assembler / Writer (`src/core/ebay_writer.py`)

The writers are modelled as pure functions from parsed CSV rows to the
tables they emit; an `Except.error` models a raised exception (nothing is
written).  Money values are modelled as exact decimals (`Money`): Python
parses prices with `float(...)` and renders them with `f"{x:.2f}"`; over
the finite decimal literals the workflow handles, exact decimal
arithmetic with round-half-even at two decimals coincides with the
double-precision behaviour (denormal-precision artifacts such as
`float("2.675")` rounding down, `inf`/`nan` literals and `-0.00` are
outside the model).
-/

def DESCRIPTION_TEXT : String :=
  "This listing is part of a large comic book inventory upload. To efficiently process and make " ++
  "thousands of books available, the image shown is a stock photo used for cataloging and " ++
  "identification purposes. Higher value Near Mint (NM) books and key issues will be updated with " ++
  "an image of the actual book in the order they are uploaded. If you happen to view a listing " ++
  "before we get a chance to update the image, feel free to message me for actual photos and I’ll " ++
  "get them over to you as fast as I can. Buy with confidence. Books are packaged securely with " ++
  "protective materials to ensure safe delivery. Combined shipping is available when purchasing " ++
  "multiple items. Your satisfaction is important. If you are unhappy for any reason, simply " ++
  "return the comic within 30 days for a no-questions-asked refund."

/-- `FIXED_BY_COLUMN_INDEX` (ebay_writer.py:36), in dict insertion order. -/
def FIXED_BY_COLUMN_INDEX : List (Nat × String) :=
  [(0, "Add "), (2, "259104"), (9, "3000"),
   (12, "Superheroes"), (17, "Single Issue"), (19, "Comic Book"),
   (22, "US Comics"), (25, "Boarded"),
   (28, "Single Issue"), (29, "No"), (30, "No"), (31, "No"),
   (34, "Color"), (36, "English"), (37, "United States "),
   (40, "General Audience"),
   (49, DESCRIPTION_TEXT),
   (50, "FixedPrice"), (51, "GTC"), (59, "19014"),
   (73, "Single Book - (ID: 261714543021)"),
   (74, "Returns Accepted,Seller,30 Days,Money Back,In - (ID: 227092209021)")]

def pow10 : Nat → Int
  | 0 => 1
  | n + 1 => 10 * pow10 n

/-- An exact decimal number `num / 10^scale` (the finite values `float`
takes in this workflow). -/
structure Money where
  num : Int
  scale : Nat
deriving DecidableEq, Inhabited

/-- Exact value order: `a < b` iff `a.num/10^a.scale < b.num/10^b.scale`. -/
def moneyLt (a b : Money) : Bool :=
  a.num * pow10 b.scale < b.num * pow10 a.scale

/-- Round `a / b` (with `b > 0`) to the nearest integer, ties to even —
`printf` `%.2f` rounding over exact decimals. -/
def roundHalfEvenDiv (a b : Int) : Int :=
  let q := a.fdiv b
  let r := a.fmod b
  if 2 * r < b then q
  else if b < 2 * r then q + 1
  else if q % 2 = 0 then q else q + 1

def centsToString (n : Nat) : String :=
  toString (n / 100) ++ "." ++
    (if n % 100 < 10 then "0" ++ toString (n % 100) else toString (n % 100))

/-- `f"{float(v):.2f}"` over the exact-decimal model. -/
def fmtMoney (m : Money) : String :=
  let cents := roundHalfEvenDiv (m.num * 100) (pow10 m.scale)
  if cents < 0 then "-" ++ centsToString (-cents).toNat
  else centsToString cents.toNat

/-- Exponent tail of a Python float literal: `e`/`E`, optional sign,
digits; a positive exponent scales the mantissa, a negative one deepens
the scale. -/
def parseExpPart (m : Money) : List Char → Option Money
  | [] => some m
  | c :: rest =>
      if c = 'e' || c = 'E' then
        let sr : Bool × List Char :=
          match rest with
          | '+' :: r => (false, r)
          | '-' :: r => (true, r)
          | r => (false, r)
        let digs := sr.2.takeWhile isAsciiDigit
        if digs ≠ [] && sr.2.dropWhile isAsciiDigit = [] then
          if sr.1 then some ⟨m.num, m.scale + digitsToNat digs⟩
          else some ⟨m.num * pow10 (digitsToNat digs), m.scale⟩
        else none
      else none

def parseDecimalCore (l : List Char) : Option Money :=
  let intDigs := l.takeWhile isAsciiDigit
  let r1 := l.dropWhile isAsciiDigit
  match r1 with
  | '.' :: r2 =>
      let fracDigs := r2.takeWhile isAsciiDigit
      let r3 := r2.dropWhile isAsciiDigit
      if intDigs = [] && fracDigs = [] then none
      else
        parseExpPart
          ⟨(digitsToNat (intDigs ++ fracDigs) : Int), fracDigs.length⟩ r3
  | _ =>
      if intDigs = [] then none
      else parseExpPart ⟨(digitsToNat intDigs : Int), 0⟩ r1

/-- `float(s)` on a finite decimal literal (optional sign, digits with an
optional fraction, optional exponent). -/
def parseDecimal (l : List Char) : Option Money :=
  match l with
  | '+' :: r => parseDecimalCore r
  | '-' :: r => (parseDecimalCore r).map (fun m => ⟨-m.num, m.scale⟩)
  | _ => parseDecimalCore l

/-- `s.replace("$", "").replace(",", "").strip()`. -/
def moneyClean (s : String) : List Char :=
  trimWs (s.data.filter (fun c => c ≠ '$' && c ≠ ','))

/-- `_format_money` (ebay_writer.py:101) on a string value. -/
def formatMoneyStr (s : String) : String :=
  if pyStrip s = "" then ""
  else
    match parseDecimal (moneyClean s) with
    | some q => fmtMoney q
    | none => ""

/-- `_parse_money_to_float` (ebay_writer.py:117) on a string value. -/
def parseMoneyStr (s : String) : Option Money :=
  if pyStrip s = "" then none
  else parseDecimal (moneyClean s)

/-- `_compute_start_price` (ebay_writer.py:165). -/
def computeStartPrice (rowValue : String) (minStartPrice : Option Money) : String :=
  match minStartPrice with
  | none => formatMoneyStr rowValue
  | some m =>
      match parseMoneyStr rowValue with
      | none => fmtMoney m
      | some v => if moneyLt v m then fmtMoney m else fmtMoney v

/-- Python `str.isprintable`, ASCII model: printable iff not a control
character. -/
def isPrintableChar (c : Char) : Bool := 0x20 ≤ c.toNat && c.toNat ≠ 0x7F

/-- `title[:80].rstrip() if len(title) > 80 else title`. -/
def truncate80 (s : String) : String :=
  if s.length > 80 then ⟨((s.data.take 80).reverse.dropWhile isPyWs).reverse⟩
  else s

def isSkuChar (c : Char) : Bool := isAsciiLower c || isAsciiDigit c

/-- `re.sub(r"[^a-z0-9]+", "_", s)`: each maximal run of non-`[a-z0-9]`
characters becomes a single underscore. -/
def subNonAlnum : List Char → List Char
  | [] => []
  | [c] => if isSkuChar c then [c] else ['_']
  | c1 :: c2 :: rest =>
      if ¬ isSkuChar c1 && ¬ isSkuChar c2 then subNonAlnum (c2 :: rest)
      else (if isSkuChar c1 then c1 else '_') :: subNonAlnum (c2 :: rest)

/-- `.strip("_")`. -/
def stripUnderscore (l : List Char) : List Char :=
  ((l.dropWhile (fun c => c = '_')).reverse.dropWhile (fun c => c = '_')).reverse

/-- `f"{n:04d}"` for a natural number. -/
def pad4 (n : Nat) : String :=
  let d := toString n
  if d.length < 4 then ⟨List.replicate (4 - d.length) '0' ++ d.data⟩ else d

/-- `ComicRecord.to_ebay_row` (image_allocator.py:74): dynamic column map,
as an insertion-ordered index/value list. -/
def to_ebay_row (c : ComicRecord) : List (Nat × String) :=
  let sku_base : String := ⟨stripUnderscore (subNonAlnum (pyLower c.series_norm).data)⟩
  let issue_part := pad4 c.issue_number ++ pyUpper c.issue_suffix
  let sku := sku_base ++ "_v" ++ toString c.volume ++ "_" ++ issue_part
  let suffix0 := pyStrip c.title_suffix
  let suffix :=
    if suffix0 = "" && c.issue_suffix ≠ "" then "Cvr " ++ pyUpper c.issue_suffix
    else suffix0
  let title0 := pyStrip (c.series_raw ++ " Vol. " ++ toString c.volume ++ " #" ++
    toString c.issue_number)
  let title1 := if suffix ≠ "" then pyStrip (title0 ++ " " ++ suffix) else title0
  let title2 : String := ⟨trimWs (collapseWs title1.data)⟩
  let title3 : String := ⟨title2.data.filter isPrintableChar⟩
  let title := truncate80 title3
  [(1, sku), (4, title), (10, c.series_raw), (43, toString c.issue_number), (57, "1")]
    ++ (if c.raw_title ≠ "" then [(33, c.raw_title)] else [])

/-- `_series_display_name` (ebay_writer.py:93). -/
def seriesDisplayName (s : String) : String :=
  let s0 := pyStrip s
  let s1 : List Char := trimWs (stripVolPhrases [',', '(', ')', '-'] s0.data)
  let s2 : List Char := trimWs (collapseWs s1)
  let s3 : List Char := trimWs ((s2.reverse.dropWhile (fun c => c = ',')).reverse)
  ⟨s3⟩

/-- `_build_title` (ebay_writer.py:139).  `_get_attr_str` is
`str(getattr(row, name, "")).strip()`; numbers print via `str`. -/
def buildTitle (c : ComicRecord) : String :=
  let series := seriesDisplayName (pyStrip c.series_raw)
  let volume := pyStrip (toString c.volume)
  let issue := pyStrip (toString c.issue_number)
  let tsuffix := pyStrip c.title_suffix
  let year :=
    if pyStrip c.release_year ≠ "" then pyStrip c.release_year
    else pyStrip c.publication_year
  let publisher := pyStrip c.publisher
  let parts :=
    (if series ≠ "" then [series] else []) ++
    (if volume ≠ "" then ["Vol. " ++ volume] else []) ++
    (if issue ≠ "" then ["#" ++ issue] else []) ++
    (if tsuffix ≠ "" then [tsuffix] else []) ++
    (if year ≠ "" then ["(" ++ year ++ ")"] else []) ++
    (if publisher ≠ "" then [publisher] else [])
  truncate80 (pyStrip (joinWith " " parts))

/-- `_load_template_rows` (ebay_writer.py:68) over the parsed template
rows.  A missing row and an empty row are both falsy in Python; an
out-of-range checkpoint access raises `IndexError`. -/
def loadTemplateRows (rows : List (List String)) :
    Except String (List String × List String) :=
  let info := rows.getD 0 []
  let header := rows.getD 1 []
  if info = [] ∨ header = [] then
    .error "Invalid eBay template CSV (missing info/header rows)."
  else if info.length ≠ header.length then
    .error "Invalid eBay template CSV (row length mismatch)."
  else if header.length ≤ 4 then .error "IndexError: list index out of range"
  else if header.getD 4 "" ≠ "*Title" then
    .error "*Title column mismatch (expected at index 4)."
  else if header.length ≤ 46 then .error "IndexError: list index out of range"
  else if header.getD 46 "" ≠ "PicURL" then
    .error "PicURL column mismatch (expected at index 46)."
  else if header.length ≤ 52 then .error "IndexError: list index out of range"
  else if header.getD 52 "" ≠ "*StartPrice" then
    .error "*StartPrice column mismatch (expected at index 52)."
  else if header.length ≤ 65 then .error "IndexError: list index out of range"
  else if header.getD 65 "" ≠ "*DispatchTimeMax" then
    .error "*DispatchTimeMax column mismatch (expected at index 65)."
  else .ok (info, header)

/-- `if 0 <= idx < column_count: out[idx] = val` applied over an
index/value list. -/
def applyUpdates (n : Nat) (l : List String) (pairs : List (Nat × String)) :
    List String :=
  pairs.foldl (fun acc p => if p.1 < n then acc.set p.1 p.2 else acc) l

/-- One data row of the ready CSV (ebay_writer.py:201-236).  The direct
column assignments are `List.set`; in the writer `n > 65`, so every index
written here is in range. -/
def buildEbayRow (c : ComicRecord) (n : Nat) (minP : Option Money) : List String :=
  let out := List.replicate n ""
  let out := applyUpdates n out (to_ebay_row c)
  let out := out.set 4 (buildTitle c)
  -- `_get_attr_str(row, "characters") or _get_attr_str(row, "character")`:
  -- `ComicRecord` has no `character` attribute, so the fallback is "".
  let out := out.set 11 (pyStrip c.characters)
  let out := out.set 14 (pyStrip c.publisher)
  let out := out.set 16 (if pyStrip c.release_year ≠ "" then pyStrip c.release_year
    else pyStrip c.publication_year)
  let out := out.set 18 (pyStrip c.era)
  let out := out.set 20 (pyStrip c.grade)
  let out := out.set 24 (pyStrip c.universe)
  let out := out.set 26 (pyStrip c.cover_artist)
  let out := out.set 52 (computeStartPrice c.value minP)
  let out := out.set 46 (pyStrip c.image_url ++ "|")
  let out := applyUpdates n out FIXED_BY_COLUMN_INDEX
  out.set 65 ""

/-- Header of the failed CSV written by `write_ebay_csvs`
(ebay_writer.py:239). -/
def ebayFailedHeader (headers : List String) : List String :=
  ["Reason", "Unused_Image_URLs"] ++ headers

/-- One data row of the failed CSV written by `write_ebay_csvs`
(ebay_writer.py:244-250). -/
def ebayFailedRow (n : Nat) (c : ComicRecord) : List String :=
  c.failure_reason :: c.unused_image_urls ::
    applyUpdates n (List.replicate n "") (to_ebay_row c)

/-- `write_ebay_csvs` (ebay_writer.py:185): template validation happens
before anything is emitted; on success the two tables (each with their
header rows) are produced. -/
def writeEbayCsvs (templateRows : List (List String))
    (ebayRows failedRows : List ComicRecord) (minP : Option Money) :
    Except String (List (List String) × List (List String)) :=
  match loadTemplateRows templateRows with
  | .error e => .error e
  | .ok ih =>
      let n := ih.2.length
      .ok (ih.1 :: ih.2 :: ebayRows.map (fun c => buildEbayRow c n minP),
           ebayFailedHeader ih.2 :: failedRows.map (fun c => ebayFailedRow n c))

/-!
## Failure writer (`src/core/failure_writer.py`)
-/

/-- `write_failure_csv` (failure_writer.py:13): `none` models the early
return when there are no failed comics (no file written); otherwise the
header and rows of the emitted CSV.  Records whose `clz_row` is falsy
(`None` or `[]`) are skipped. -/
def write_failure_csv (clzHeader : List String)
    (failedComics : List ComicRecord) :
    Option (List String × List (List String)) :=
  if failedComics = [] then none
  else
    some (clzHeader ++ ["FailureReason"],
      failedComics.filterMap (fun comic =>
        match comic.clz_row with
        | none => none
        | some r =>
            if r = [] then none
            else some (r ++
              [if comic.failure_reason = "" then "UNKNOWN" else comic.failure_reason])))

/-!
## Allocator single-assignment invariant (claim C1)
-/

/-- All asset ids attached to matched records, in assignment order. -/
def assignedIds (st : AllocState) : List String :=
  (st.matched.map ComicRecord.allocated_image_ids).flatten

/-- Loop invariant for `allocate_images`. -/
structure AllocInv (images0 : List ImageAsset) (st : AllocState) : Prop where
  len_eq : st.images.length = images0.length
  ids_nodup : (st.images.map ImageAsset.id).Nodup
  assigned_nodup : (assignedIds st).Nodup
  assigned_used : ∀ s ∈ assignedIds st, ∀ (i : Nat) (a : ImageAsset),
    st.images[i]? = some a → a.id = s → a.used = true
  ledger_nodup : (st.ledger_image_to_comic.map Prod.fst).Nodup
  ledger_sub : ∀ k ∈ st.ledger_image_to_comic.map Prod.fst, k ∈ assignedIds st

/-!
## Specification-side definitions and concrete instances
-/

/-- Claim C6's reading of `parse_image_filename`: the designated issue
token is the token after the first `v<digits>` marker (or the last token
without a marker); parsing fails iff there are fewer than 2 tokens, the
designated token is absent or fails the issue grammar, or no series token
survives year filtering. -/
def parseImageKeySpec (f : String) : Option (String × Nat × Nat × String) :=
  let parts := imageParts f
  if parts.length < 2 then none
  else
    let volIdx? := parts.findIdx? (fun p => (volTokenValue p).isSome)
    let issueIdx := match volIdx? with
      | some i => i + 1
      | none => parts.length - 1
    match parts[issueIdx]? with
    | none => none
    | some tok =>
        match parse_issue_token tok with
        | none => none
        | some ns =>
            let seriesToks := (match volIdx? with
              | some i => parts.take i
              | none => parts.dropLast).filter (fun t => ¬ isYearToken t)
            if seriesToks = [] then none
            else
              some (normalize_series
                  (joinWith " " (seriesToks.map (fun t => (⟨t⟩ : String)))),
                (match volIdx? with
                 | some i => (volTokenValue (parts.getD i [])).getD 1
                 | none => 1),
                ns.1, ns.2)

/-- Claim C8's template-fault condition: info/header rows missing (or
empty, which Python treats the same), row lengths differing, or one of the
four checkpoint columns not carrying its expected label. -/
def templateInvalid (rows : List (List String)) : Prop :=
  rows.getD 0 [] = [] ∨ rows.getD 1 [] = [] ∨
  (rows.getD 0 []).length ≠ (rows.getD 1 []).length ∨
  (rows.getD 1 []).getD 4 "" ≠ "*Title" ∨
  (rows.getD 1 []).getD 46 "" ≠ "PicURL" ∨
  (rows.getD 1 []).getD 52 "" ≠ "*StartPrice" ∨
  (rows.getD 1 []).getD 65 "" ≠ "*DispatchTimeMax"

instance (rows : List (List String)) : Decidable (templateInvalid rows) := by
  unfold templateInvalid; exact inferInstance

/-- No two adjacent whitespace characters (the shape `collapseWs`
guarantees). -/
def noWsPair (a b : Char) : Prop := ¬ (isPyWs a = true ∧ isPyWs b = true)

/-- Claim C10: the issue cell contains a decimal digit. -/
def cellHasDigit (s : String) : Bool := s.data.any isAsciiDigit

/-- Claim C10: the first run of digits in the (stripped) issue cell. -/
def firstDigitRun (s : String) : List Char :=
  ((trimWs s.data).dropWhile (fun c => ¬ isAsciiDigit c)).takeWhile isAsciiDigit

/-- Claim C10: the single optional letter following the first digit run
(whitespace in between allowed), upper-cased. -/
def letterAfterFirstDigitRun (s : String) : String :=
  match (((trimWs s.data).dropWhile (fun c => ¬ isAsciiDigit c)).dropWhile
      isAsciiDigit).dropWhile isPyWs with
  | c :: _ => if isAsciiLetter c then ⟨[pyUpperChar c]⟩ else ""
  | [] => ""

/-- A record that is already FAILED before allocation (as `load_clz_csv`
produces for an unparseable issue cell). -/
def preFailedComic : ComicRecord :=
  { id := 1, series_raw := "Batman", series_norm := "batman", volume := 1,
    issue_number := 0, clz_row := some ["Batman", ""], status := "FAILED",
    failure_reason := "UNPARSEABLE_ISSUE" }

/-- An unused asset whose key matches `preFailedComic`. -/
def issueZeroAsset : ImageAsset :=
  { id := "img-0", filename := "Batman_0.png", path := "Batman_0.png",
    series_norm := "batman", volume := 1, issue_number := 0 }

def preFailedState : AllocState := ⟨[issueZeroAsset], [], [], [], []⟩

/-- A second unused asset with the same key and a distinct id. -/
def issueZeroAssetB : ImageAsset :=
  { id := "img-1", filename := "Batman_0B.png", path := "Batman_0B.png",
    series_norm := "batman", volume := 1, issue_number := 0, issue_suffix := "B" }

/-- A second record with the same key. -/
def preFailedComicB : ComicRecord := { preFailedComic with id := 2 }

/-- The comic as the allocator marks it on a successful assignment. -/
def markMatched (comic : ComicRecord) (imgId : String) : ComicRecord :=
  { comic with status := "MATCHED",
               allocated_image_ids := comic.allocated_image_ids ++ [imgId] }

/-- The comic as the allocator marks it when no unused asset matches. -/
def markNoImage (comic : ComicRecord) : ComicRecord :=
  { comic with status := "FAILED", failure_reason := "NO_MATCHING_IMAGE" }

/-- The state after a successful assignment of the asset at position `i`
to `comic` (the `some` branch of `allocStep`, spelled out). -/
def allocMatchedState (st : AllocState) (comic : ComicRecord) (i : Nat) : AllocState :=
  { images := st.images.set i { st.images.getD i default with used := true },
    matched := st.matched ++ [markMatched comic (st.images.getD i default).id],
    failed := st.failed,
    ledger_image_to_comic :=
      dictInsert st.ledger_image_to_comic (st.images.getD i default).id comic.id,
    ledger_comic_to_images :=
      ledgerAppend st.ledger_comic_to_images comic.id (st.images.getD i default).id }

/-- The state after routing `comic` to failed with reason
NO_MATCHING_IMAGE (the `none` branch of `allocStep`, spelled out). -/
def allocFailedState (st : AllocState) (comic : ComicRecord) : AllocState :=
  { st with failed := st.failed ++ [markNoImage comic] }

/-- Two catalog records sharing the Match Key `("x", 1, 5)` (the spec's
ambiguous-variant scenario). -/
def xComic1 : ComicRecord :=
  { id := 1, series_raw := "x", series_norm := "x", volume := 1, issue_number := 5 }

def xComic2 : ComicRecord := { xComic1 with id := 2 }

/-- Two candidate images for that key, both carrying variant tag "A". -/
def aaPool : List HostedImage := [⟨"http://h/u1", "A"⟩, ⟨"http://h/u2", "A"⟩]

/-- A syntactically valid 66-column template (labels at the four
checkpoints). -/
def validTemplateHeader : List String :=
  ((((List.replicate 66 "h").set 4 "*Title").set 46 "PicURL").set 52
    "*StartPrice").set 65 "*DispatchTimeMax"

def validTemplateInfo : List String := List.replicate 66 "i"

def validTemplateRows : List (List String) := [validTemplateInfo, validTemplateHeader]

/-- A failed record as the eBay CSV workflow routes it. -/
def sampleFailedComic : ComicRecord :=
  { id := 1, series_raw := "Batman", series_norm := "batman", volume := 1,
    issue_number := 0, clz_row := some ["Batman", ""], status := "FAILED",
    failure_reason := "UNPARSEABLE_ISSUE" }

/-- The failed table emitted by `write_ebay_csvs` on that input. -/
def sampleEbayFailedTable : List (List String) :=
  match writeEbayCsvs validTemplateRows [] [sampleFailedComic] none with
  | .ok p => p.2
  | .error _ => []

/-- A matched record for exercising the ready-CSV row assembly. -/
def sampleMatchedComic : ComicRecord :=
  { id := 1, series_raw := "Batman", series_norm := "batman", volume := 2,
    issue_number := 12, issue_suffix := "A", status := "MATCHED",
    image_url := "http://h/Batman_V2_12A.png", value := "5" }

def sampleReadyTable : List (List String) :=
  match writeEbayCsvs validTemplateRows [sampleMatchedComic] [] none with
  | .ok p => p.1
  | .error _ => []

def sampleReadyFailedTable : List (List String) :=
  match writeEbayCsvs validTemplateRows [sampleMatchedComic] [] none with
  | .ok p => p.2
  | .error _ => []

def sampleReadyRow : List String := sampleReadyTable.getD 2 []

theorem map_id_set_used (l : List ImageAsset) (i : Nat) (a : ImageAsset)
    (h : l[i]? = some a) :
    (l.set i { a with used := true }).map ImageAsset.id = l.map ImageAsset.id := by
  apply List.ext_getElem?
  intro n
  simp only [List.getElem?_map, List.getElem?_set]
  by_cases hin : i = n
  · subst hin
    have hlt : i < l.length := by
      rcases List.getElem?_eq_some.mp h with ⟨hlt, _⟩
      exact hlt
    simp [hlt, h]
  · simp [hin]

theorem findUnusedIndex_lt (images0 cur : List ImageAsset) (key : String × Nat × Nat)
    (i : Nat) (h : findUnusedIndex images0 cur key = some i) : i < images0.length := by
  have hmem : i ∈ sortedBucket images0 key := List.mem_of_find?_eq_some h
  have hmem2 : i ∈ bucketIndices images0 key :=
    (List.perm_insertionSort (bucketLe images0) (bucketIndices images0 key)).mem_iff.mp hmem
  have := (List.mem_filter.mp hmem2).1
  exact List.mem_range.mp this

theorem findUnusedIndex_unused (images0 cur : List ImageAsset)
    (key : String × Nat × Nat) (i : Nat) (h : findUnusedIndex images0 cur key = some i) :
    (cur.getD i default).used = false := by
  have := List.find?_some h
  simpa using this

theorem allocStep_inv (images0 : List ImageAsset) (st : AllocState) (c : ComicRecord)
    (hInv : AllocInv images0 st) (hc : c.allocated_image_ids = []) :
    AllocInv images0 (allocStep images0 st c) := by
  unfold allocStep
  cases hf : findUnusedIndex images0 st.images (comicKey c) with
  | none =>
      exact { len_eq := hInv.len_eq, ids_nodup := hInv.ids_nodup,
              assigned_nodup := hInv.assigned_nodup,
              assigned_used := hInv.assigned_used,
              ledger_nodup := hInv.ledger_nodup,
              ledger_sub := hInv.ledger_sub }
  | some i =>
      have hilt0 : i < images0.length := findUnusedIndex_lt _ _ _ _ hf
      have hilt : i < st.images.length := by rw [hInv.len_eq]; exact hilt0
      have hget : st.images[i]? = some (st.images.getD i default) := by
        rw [List.getD_eq_getElem?_getD, List.getElem?_eq_getElem hilt]
        rfl
      have hunused : (st.images.getD i default).used = false :=
        findUnusedIndex_unused _ _ _ _ hf
      set chosen := st.images.getD i default with hchosen
      -- the chosen id is not yet assigned
      have hfresh : chosen.id ∉ assignedIds st := by
        intro hmem
        have := hInv.assigned_used chosen.id hmem i chosen hget rfl
        rw [hunused] at this
        exact Bool.false_ne_true this
      have hassigned' :
          assignedIds { st with
            images := st.images.set i { chosen with used := true },
            matched := st.matched ++
              [{ c with status := "MATCHED",
                        allocated_image_ids := c.allocated_image_ids ++ [chosen.id] }],
            ledger_image_to_comic := dictInsert st.ledger_image_to_comic chosen.id c.id,
            ledger_comic_to_images := ledgerAppend st.ledger_comic_to_images c.id chosen.id } =
          assignedIds st ++ [chosen.id] := by
        simp [assignedIds, hc]
      refine { len_eq := ?_, ids_nodup := ?_, assigned_nodup := ?_,
               assigned_used := ?_, ledger_nodup := ?_, ledger_sub := ?_ }
      · simpa using hInv.len_eq
      · show ((st.images.set i { chosen with used := true }).map ImageAsset.id).Nodup
        rw [map_id_set_used st.images i chosen hget]
        exact hInv.ids_nodup
      · rw [hassigned']
        simp [List.nodup_append, hInv.assigned_nodup, hfresh]
      · rw [hassigned']
        intro s hs j b hb hid
        rcases List.mem_append.mp hs with hs | hs
        · -- previously assigned ids stay used
          rw [List.getElem?_set] at hb
          by_cases hji : i = j
          · subst hji
            simp only [if_pos rfl, if_pos hilt] at hb
            cases hb
            simp
          · rw [if_neg hji] at hb
            exact hInv.assigned_used s hs j b hb hid
        · -- the newly assigned id: only the chosen (now used) asset carries it
          have hs' : s = chosen.id := by simpa using hs
          subst hs'
          rw [List.getElem?_set] at hb
          by_cases hji : i = j
          · subst hji
            simp only [if_pos rfl, if_pos hilt] at hb
            cases hb
            simp
          · rw [if_neg hji] at hb
            -- two positions with the same id contradict Nodup ids
            exfalso
            have hmapi : (st.images.map ImageAsset.id)[i]? = some chosen.id := by
              rw [List.getElem?_map, hget]; rfl
            have hmapj : (st.images.map ImageAsset.id)[j]? = some chosen.id := by
              rw [List.getElem?_map, hb]
              simp [hid]
            have : i = j :=
              List.getElem?_inj (by simpa using hilt) hInv.ids_nodup
                (by rw [hmapi, hmapj])
            exact hji this
      · -- ledger keys stay pairwise distinct
        have hnotkey : ¬ st.ledger_image_to_comic.any (fun p => p.1 = chosen.id) = true := by
          intro hany
          rcases List.any_eq_true.mp hany with ⟨p, hp, hpk⟩
          have : p.1 ∈ st.ledger_image_to_comic.map Prod.fst := List.mem_map_of_mem _ hp
          have := hInv.ledger_sub p.1 this
          rw [of_decide_eq_true hpk] at this
          exact hfresh this
        simp only [dictInsert, if_neg hnotkey]
        rw [List.map_append]
        refine List.Nodup.append hInv.ledger_nodup (by simp) ?_
        intro a ha hb
        simp only [List.map_cons, List.map_nil, List.mem_singleton] at hb
        rw [hb] at ha
        exact absurd (hInv.ledger_sub chosen.id ha) hfresh
      · have hnotkey : ¬ st.ledger_image_to_comic.any (fun p => p.1 = chosen.id) = true := by
          intro hany
          rcases List.any_eq_true.mp hany with ⟨p, hp, hpk⟩
          have : p.1 ∈ st.ledger_image_to_comic.map Prod.fst := List.mem_map_of_mem _ hp
          have := hInv.ledger_sub p.1 this
          rw [of_decide_eq_true hpk] at this
          exact hfresh this
        rw [hassigned']
        simp only [dictInsert, if_neg hnotkey]
        intro k hk
        rw [List.map_append] at hk
        rcases List.mem_append.mp hk with hk | hk
        · exact List.mem_append_left _ (hInv.ledger_sub k hk)
        · simp only [List.map_cons, List.map_nil, List.mem_singleton] at hk
          rw [hk]
          exact List.mem_append_right _ (List.mem_singleton_self _)

theorem foldl_allocStep_inv (images0 : List ImageAsset) :
    ∀ (comics : List ComicRecord) (st : AllocState), AllocInv images0 st →
      (∀ c ∈ comics, c.allocated_image_ids = []) →
      AllocInv images0 (comics.foldl (allocStep images0) st)
  | [], st, hInv, _ => hInv
  | c :: rest, st, hInv, hall => by
      rw [List.foldl_cons]
      exact foldl_allocStep_inv images0 rest _
        (allocStep_inv images0 st c hInv (hall c (List.mem_cons_self c rest)))
        (fun d hd => hall d (List.mem_cons_of_mem c hd))

/-- C1: for every list of catalog records and every list of image assets
(all initially unused, with their ids pairwise distinct as `index_images`'
uuid generation guarantees), `allocate_images` assigns each asset to at
most one record — no asset id appears in the `allocated_image_ids` of two
matched records — and `ledger_image_to_comic` maps each assigned asset id
to exactly one comic id (its keys are pairwise distinct). -/
theorem allocate_images_assigns_each_asset_at_most_once
    (comics : List ComicRecord) (images : List ImageAsset)
    (hUnused : ∀ a ∈ images, a.used = false)
    (hIds : (images.map ImageAsset.id).Nodup)
    (hAlloc : ∀ c ∈ comics, c.allocated_image_ids = []) :
    (((allocate_images comics images).matched.map
        ComicRecord.allocated_image_ids).flatten).Nodup ∧
    ((allocate_images comics images).ledger_image_to_comic.map Prod.fst).Nodup := by
  have hInv0 : AllocInv images ⟨images, [], [], [], []⟩ :=
    { len_eq := rfl, ids_nodup := hIds,
      assigned_nodup := by simp [assignedIds],
      assigned_used := by intro s hs; simp [assignedIds] at hs,
      ledger_nodup := by simp,
      ledger_sub := by intro k hk; simp at hk }
  have hInv := foldl_allocStep_inv images comics ⟨images, [], [], [], []⟩ hInv0 hAlloc
  exact ⟨hInv.assigned_nodup, hInv.ledger_nodup⟩

theorem allocate_images_assigns_each_asset_at_most_once_witness :
    (∀ a ∈ [issueZeroAsset, issueZeroAssetB], a.used = false) ∧
    (([issueZeroAsset, issueZeroAssetB].map ImageAsset.id).Nodup) ∧
    (∀ c ∈ [preFailedComic, preFailedComicB], c.allocated_image_ids = []) ∧
    ((((allocate_images [preFailedComic, preFailedComicB]
        [issueZeroAsset, issueZeroAssetB]).matched.map
        ComicRecord.allocated_image_ids).flatten).Nodup ∧
      ((allocate_images [preFailedComic, preFailedComicB]
        [issueZeroAsset, issueZeroAssetB]).ledger_image_to_comic.map
        Prod.fst).Nodup) :=
  ⟨by decide, by decide, by decide,
    allocate_images_assigns_each_asset_at_most_once _ _ (by decide) (by decide)
      (by decide)⟩

/-- C3 counterexample: a record that is already FAILED
(UNPARSEABLE_ISSUE from parsing) is NOT passed through untouched: with a
matching unused asset present, `allocate_images` matches it, attaches the
asset and consumes it, so the record appears in the matched partition, not
the failed one. -/
theorem prefailed_not_passed_through_counterexample :
    preFailedComic.status = "FAILED" ∧
    preFailedComic.failure_reason = "UNPARSEABLE_ISSUE" ∧
    (allocate_images [preFailedComic] [issueZeroAsset]).failed = [] ∧
    (allocate_images [preFailedComic] [issueZeroAsset]).matched.map
      ComicRecord.status = ["MATCHED"] ∧
    (allocate_images [preFailedComic] [issueZeroAsset]).matched.map
      ComicRecord.allocated_image_ids = [["img-0"]] ∧
    (allocate_images [preFailedComic] [issueZeroAsset]).images.map
      ImageAsset.used = [true] := by decide

/-- C3 amended: the allocator ignores the incoming status, so a record
already FAILED before allocation is reconsidered like any other record:
when its bucket holds an unused asset it is assigned that asset (consuming
it) and moved to matched with status MATCHED; otherwise it is routed to
failed with its failure reason overwritten to NO_MATCHING_IMAGE.  Fields
other than status, failure reason and the allocated-id list are
unchanged. -/
theorem allocStep_prefailed_reconsidered (images0 : List ImageAsset)
    (st : AllocState) (c : ComicRecord) (hc : c.status = "FAILED") :
    (∀ i : Nat, findUnusedIndex images0 st.images (comicKey c) = some i →
      allocStep images0 st c = allocMatchedState st c i) ∧
    (findUnusedIndex images0 st.images (comicKey c) = none →
      allocStep images0 st c = allocFailedState st c) := by
  constructor
  · intro i hf
    unfold allocStep allocMatchedState markMatched
    rw [hf]
  · intro hf
    unfold allocStep allocFailedState markNoImage
    rw [hf]

theorem allocStep_prefailed_reconsidered_witness :
    preFailedComic.status = "FAILED" ∧
    findUnusedIndex [issueZeroAsset] preFailedState.images (comicKey preFailedComic) =
      some 0 ∧
    allocStep [issueZeroAsset] preFailedState preFailedComic =
      allocMatchedState preFailedState preFailedComic 0 :=
  ⟨by decide, by decide,
    (allocStep_prefailed_reconsidered [issueZeroAsset] preFailedState preFailedComic
      (by decide)).1 0 (by decide)⟩

theorem selectImagesForGroup_of_multi (images : List HostedImage) (N : Nat)
    (hN : 1 < N) :
    selectImagesForGroup images N =
      if N ≤ images.length ∧
          ¬ ((images.take N).map (fun im => pyUpper im.variant)).contains "" ∧
          ((images.take N).map (fun im => pyUpper im.variant)).Nodup
      then some (images.take N) else none := by
  have h0 : ¬ N = 0 := by omega
  have h1 : ¬ N = 1 := by omega
  unfold selectImagesForGroup
  rw [if_neg h0]
  by_cases hnil : images = []
  · rw [if_pos hnil]
    have hrc : ¬ (N ≤ images.length ∧
        ¬ ((images.take N).map (fun im => pyUpper im.variant)).contains "" ∧
        ((images.take N).map (fun im => pyUpper im.variant)).Nodup) := by
      intro h
      rw [hnil] at h
      simp at h
      omega
    rw [if_neg hrc]
  · rw [if_neg hnil, if_neg h1]
    by_cases hlen : images.length < N
    · rw [if_pos hlen]
      have hrc : ¬ (N ≤ images.length ∧
          ¬ ((images.take N).map (fun im => pyUpper im.variant)).contains "" ∧
          ((images.take N).map (fun im => pyUpper im.variant)).Nodup) := by
        intro h
        omega
      rw [if_neg hrc]
    · rw [if_neg hlen]
      have hle : N ≤ images.length := by omega
      by_cases hc : ((images.take N).map (fun im => pyUpper im.variant)).contains ""
      · rw [if_pos hc]
        have hrc : ¬ (N ≤ images.length ∧
            ¬ ((images.take N).map (fun im => pyUpper im.variant)).contains "" ∧
            ((images.take N).map (fun im => pyUpper im.variant)).Nodup) :=
          fun h => h.2.1 hc
        rw [if_neg hrc]
      · rw [if_neg hc]
        by_cases hn : ((images.take N).map (fun im => pyUpper im.variant)).Nodup
        · rw [if_neg (not_not_intro hn), if_pos ⟨hle, hc, hn⟩]
        · rw [if_pos hn]
          have hrc : ¬ (N ≤ images.length ∧
              ¬ ((images.take N).map (fun im => pyUpper im.variant)).contains "" ∧
              ((images.take N).map (fun im => pyUpper im.variant)).Nodup) :=
            fun h => hn h.2.2
          rw [if_neg hrc]

/-- C2: in the grouping allocation mode, for every group of N>1 records
sharing a key and every candidate image pool for that key, the group is
matched exactly when the pool holds at least N images and the first N
(after the deterministic variant sort) carry pairwise-distinct, non-empty
variant tags; otherwise every record of the group is routed to failed with
the key's unused image URLs joined pipe-delimited into its diagnostic
field. -/
theorem group_allocation_variant_safety (usedUrls : List String)
    (group : List ComicRecord) (pool : List HostedImage)
    (hN : 1 < group.length) :
    ((group.length ≤ (sortImagesByVariant pool).length ∧
      ¬ (((sortImagesByVariant pool).take group.length).map
          (fun im => pyUpper im.variant)).contains "" ∧
      (((sortImagesByVariant pool).take group.length).map
          (fun im => pyUpper im.variant)).Nodup) →
      (processGroup usedUrls group (sortImagesByVariant pool)).2.1 = [] ∧
      (processGroup usedUrls group (sortImagesByVariant pool)).1.length =
        group.length) ∧
    (¬ (group.length ≤ (sortImagesByVariant pool).length ∧
      ¬ (((sortImagesByVariant pool).take group.length).map
          (fun im => pyUpper im.variant)).contains "" ∧
      (((sortImagesByVariant pool).take group.length).map
          (fun im => pyUpper im.variant)).Nodup) →
      (processGroup usedUrls group (sortImagesByVariant pool)).1 = [] ∧
      (processGroup usedUrls group (sortImagesByVariant pool)).2.1 =
        group.map (fun c => withFailure c "No safe image variant match"
          (joinWith "|" (((sortImagesByVariant pool).filter
            (fun im => ¬ usedUrls.contains im.url)).map (fun im => im.url))))) := by
  constructor
  · intro hcond
    unfold processGroup
    rw [selectImagesForGroup_of_multi _ _ hN, if_pos hcond]
    refine ⟨rfl, ?_⟩
    simp only [List.length_map, List.length_zip, List.length_take]
    have := hcond.1
    omega
  · intro hcond
    unfold processGroup
    rw [selectImagesForGroup_of_multi _ _ hN, if_neg hcond]
    exact ⟨rfl, rfl⟩

theorem group_allocation_variant_safety_witness :
    1 < [xComic1, xComic2].length ∧
    ¬ ([xComic1, xComic2].length ≤ (sortImagesByVariant aaPool).length ∧
      ¬ (((sortImagesByVariant aaPool).take [xComic1, xComic2].length).map
          (fun im => pyUpper im.variant)).contains "" ∧
      (((sortImagesByVariant aaPool).take [xComic1, xComic2].length).map
          (fun im => pyUpper im.variant)).Nodup) ∧
    ((processGroup [] [xComic1, xComic2] (sortImagesByVariant aaPool)).1 = [] ∧
      (processGroup [] [xComic1, xComic2] (sortImagesByVariant aaPool)).2.1 =
        [xComic1, xComic2].map
          (fun c => withFailure c "No safe image variant match"
            (joinWith "|" (((sortImagesByVariant aaPool).filter
              (fun im => ¬ ([] : List String).contains im.url)).map
              (fun im => im.url))))) :=
  ⟨by decide, by decide,
    (group_allocation_variant_safety [] [xComic1, xComic2] aaPool (by decide)).2
      (by decide)⟩

/-- `_format_money` formats exactly the values `_parse_money_to_float`
accepts: both run the same strip/clean/parse pipeline. -/
theorem formatMoneyStr_eq_parse (s : String) :
    formatMoneyStr s = (parseMoneyStr s).elim "" fmtMoney := by
  unfold formatMoneyStr parseMoneyStr
  by_cases h : pyStrip s = ""
  · rw [if_pos h, if_pos h]
    rfl
  · rw [if_neg h, if_neg h]
    cases parseDecimal (moneyClean s) <;> rfl

/-- C4: the start-price computation implements the price-floor policy —
with no minimum, the raw value is formatted as fixed two-decimal currency
(after stripping currency symbols and commas) or blank when unparseable;
with a minimum, blank/unparseable raw values and values below the minimum
resolve to the formatted minimum, while values at or above the minimum
pass through formatted — and in particular the four documented examples
hold. -/
theorem compute_start_price_policy :
    (∀ raw : String, parseMoneyStr raw = none → computeStartPrice raw none = "") ∧
    (∀ (raw : String) (q : Money), parseMoneyStr raw = some q →
      computeStartPrice raw none = fmtMoney q) ∧
    (∀ (raw : String) (m : Money), parseMoneyStr raw = none →
      computeStartPrice raw (some m) = fmtMoney m) ∧
    (∀ (raw : String) (m q : Money), parseMoneyStr raw = some q → moneyLt q m = true →
      computeStartPrice raw (some m) = fmtMoney m) ∧
    (∀ (raw : String) (m q : Money), parseMoneyStr raw = some q → moneyLt q m = false →
      computeStartPrice raw (some m) = fmtMoney q) ∧
    computeStartPrice "" (some ⟨3, 0⟩) = "3.00" ∧
    computeStartPrice "2.50" (some ⟨3, 0⟩) = "3.00" ∧
    computeStartPrice "5.00" (some ⟨3, 0⟩) = "5.00" ∧
    computeStartPrice "5" none = "5.00" := by
  refine ⟨?_, ?_, ?_, ?_, ?_, ?_, ?_, ?_, ?_⟩
  · intro raw h
    unfold computeStartPrice
    rw [formatMoneyStr_eq_parse, h]
    rfl
  · intro raw q h
    unfold computeStartPrice
    rw [formatMoneyStr_eq_parse, h]
    rfl
  · intro raw m h
    unfold computeStartPrice
    rw [h]
  · intro raw m q h hlt
    unfold computeStartPrice
    rw [h]
    simp [hlt]
  · intro raw m q h hge
    unfold computeStartPrice
    rw [h]
    simp [hge]
  · decide
  · decide
  · decide
  · decide

theorem compute_start_price_policy_witness :
    parseMoneyStr "not a price" = none ∧
    computeStartPrice "not a price" (some ⟨2, 0⟩) = fmtMoney ⟨2, 0⟩ :=
  ⟨by decide, compute_start_price_policy.2.2.1 "not a price" ⟨2, 0⟩ (by decide)⟩

/-- C5 counterexample: the failed CSV written by `write_ebay_csvs` (the
one the eBay workflow emits) does NOT consist of the original catalog
header plus an appended "FailureReason" column: it prepends "Reason" and
"Unused_Image_URLs" to the TEMPLATE headers, and its data row is the
template-mapped row, not the record's raw catalog row (here
`["Batman", ""]` from a catalog with header `["Series", "Issue Nr"]`). -/
theorem ebay_failed_csv_not_verbatim_counterexample :
    sampleEbayFailedTable.getD 0 [] = ["Reason", "Unused_Image_URLs"] ++
      validTemplateHeader ∧
    sampleEbayFailedTable.getD 0 [] ≠ ["Series", "Issue Nr", "FailureReason"] ∧
    sampleEbayFailedTable.getD 1 [] ≠ ["Batman", "", "UNPARSEABLE_ISSUE"] ∧
    sampleFailedComic.clz_row = some ["Batman", ""] := by decide

/-- C5 amended: the failure writer `write_failure_csv` does satisfy the
claim — for failed records that retain a non-empty raw catalog row it
emits exactly one row per record, the raw row verbatim plus one appended
failure-reason cell, under the original catalog header plus one appended
"FailureReason" column — while the failed CSV of `write_ebay_csvs`
instead prepends "Reason" and "Unused_Image_URLs" columns to the template
headers. -/
theorem write_failure_csv_verbatim :
    (∀ (hdr : List String) (failed : List ComicRecord), failed ≠ [] →
      (∀ c ∈ failed, ∃ r, c.clz_row = some r ∧ r ≠ []) →
      write_failure_csv hdr failed = some (hdr ++ ["FailureReason"],
        failed.map (fun c => c.clz_row.getD [] ++
          [if c.failure_reason = "" then "UNKNOWN" else c.failure_reason]))) ∧
    (∀ headers : List String,
      ebayFailedHeader headers = ["Reason", "Unused_Image_URLs"] ++ headers) := by
  have key : ∀ failed : List ComicRecord,
      (∀ c ∈ failed, ∃ r, c.clz_row = some r ∧ r ≠ []) →
      failed.filterMap (fun comic =>
        match comic.clz_row with
        | none => none
        | some r =>
            if r = [] then none
            else some (r ++
              [if comic.failure_reason = "" then "UNKNOWN" else comic.failure_reason])) =
      failed.map (fun c => c.clz_row.getD [] ++
        [if c.failure_reason = "" then "UNKNOWN" else c.failure_reason]) := by
    intro failed hrows
    induction failed with
    | nil => rfl
    | cons c rest ih =>
        obtain ⟨r, hr, hrne⟩ := hrows c (List.mem_cons_self c rest)
        rw [List.filterMap_cons, List.map_cons, hr]
        simp only [if_neg hrne]
        rw [ih (fun d hd => hrows d (List.mem_cons_of_mem c hd))]
        rfl
  constructor
  · intro hdr failed hne hrows
    unfold write_failure_csv
    rw [if_neg hne]
    exact congrArg some (congrArg (Prod.mk _) (key failed hrows))
  · intro headers
    rfl

theorem write_failure_csv_verbatim_witness :
    ([sampleFailedComic] ≠ []) ∧
    write_failure_csv ["Series", "Issue Nr"] [sampleFailedComic] =
      some (["Series", "Issue Nr"] ++ ["FailureReason"],
        [sampleFailedComic].map (fun c => c.clz_row.getD [] ++
          [if c.failure_reason = "" then "UNKNOWN" else c.failure_reason])) :=
  ⟨by decide,
    write_failure_csv_verbatim.1 ["Series", "Issue Nr"] [sampleFailedComic]
      (by decide)
      (fun c hc => by
        rw [List.mem_singleton] at hc
        rw [hc]
        exact ⟨["Batman", ""], rfl, by decide⟩)⟩

/-- C6: the image-key parser splits the stem on underscores and returns
`none` exactly when there are fewer than 2 tokens, when the designated
issue token (the token after the first `v<digits>` marker, or the last
token without a marker) is absent or fails the issue-token grammar, or
when no series tokens remain after excluding 4-digit year tokens;
otherwise it returns the normalized series from the tokens before the
marker/issue token minus year tokens, the marker's volume or default 1,
the parsed issue number and the upper-cased suffix —
`parse_image_filename` coincides with the claim's description
`parseImageKeySpec` on every input. -/
theorem parse_image_filename_eq_spec (f : String) :
    parse_image_filename f = parseImageKeySpec f := by
  unfold parse_image_filename parseImageKeySpec imageParts
  by_cases hn : pathStem f.data = []
  · rw [hn]
    rfl
  · rw [if_neg hn]
    set parts := (splitOnChar '_' (pathStem f.data)).filter (fun p => p ≠ [])
      with hparts
    by_cases hlen : parts.length < 2
    · rw [if_pos hlen, if_pos hlen]
    · rw [if_neg hlen, if_neg hlen]
      cases hv : parts.findIdx? (fun p => (volTokenValue p).isSome) with
      | none =>
          simp only [hv]
          have hlt : parts.length - 1 < parts.length := by omega
          rw [if_neg (show ¬ parts.length - 1 ≥ parts.length by omega)]
          have hget : parts[parts.length - 1]? =
              some (parts.getD (parts.length - 1) []) := by
            rw [List.getD_eq_getElem?_getD, List.getElem?_eq_getElem hlt]
            rfl
          simp only [hget]
          cases hp : parse_issue_token (parts.getD (parts.length - 1) []) with
          | none => rfl
          | some ns =>
              obtain ⟨n1, n2⟩ := ns
              rfl
      | some i =>
          simp only [hv]
          by_cases hge : i + 1 ≥ parts.length
          · rw [if_pos hge, List.getElem?_eq_none (by omega)]
          · rw [if_neg hge]
            have hlt : i + 1 < parts.length := by omega
            have hget : parts[i + 1]? = some (parts.getD (i + 1) []) := by
              rw [List.getD_eq_getElem?_getD, List.getElem?_eq_getElem hlt]
              rfl
            simp only [hget]
            cases hp : parse_issue_token (parts.getD (i + 1) []) with
            | none => rfl
            | some ns =>
                obtain ⟨n1, n2⟩ := ns
                rfl

/-!
## Idempotence of the series normalizer (claim C7)
-/

theorem charOfNat_toNat (n : Nat) (h : Nat.isValidChar n) :
    (Char.ofNat n).toNat = n := by
  unfold Char.ofNat
  rw [dif_pos h]
  rfl

theorem isAsciiUpper_iff (c : Char) :
    isAsciiUpper c = true ↔ 65 ≤ c.toNat ∧ c.toNat ≤ 90 := by
  unfold isAsciiUpper
  rw [Bool.and_eq_true, decide_eq_true_eq, decide_eq_true_eq]
  constructor
  · rintro ⟨h1, h2⟩
    exact ⟨h1, h2⟩
  · rintro ⟨h1, h2⟩
    exact ⟨h1, h2⟩

theorem isAsciiLower_iff (c : Char) :
    isAsciiLower c = true ↔ 97 ≤ c.toNat ∧ c.toNat ≤ 122 := by
  unfold isAsciiLower
  rw [Bool.and_eq_true, decide_eq_true_eq, decide_eq_true_eq]
  constructor
  · rintro ⟨h1, h2⟩
    exact ⟨h1, h2⟩
  · rintro ⟨h1, h2⟩
    exact ⟨h1, h2⟩

theorem isAsciiDigit_iff (c : Char) :
    isAsciiDigit c = true ↔ 48 ≤ c.toNat ∧ c.toNat ≤ 57 := by
  unfold isAsciiDigit
  rw [Bool.and_eq_true, decide_eq_true_eq, decide_eq_true_eq]
  constructor
  · rintro ⟨h1, h2⟩
    exact ⟨h1, h2⟩
  · rintro ⟨h1, h2⟩
    exact ⟨h1, h2⟩

theorem pyLowerChar_not_upper (c : Char) : isAsciiUpper (pyLowerChar c) = false := by
  unfold pyLowerChar
  by_cases h : isAsciiUpper c = true
  · rw [if_pos h]
    rcases (isAsciiUpper_iff c).mp h with ⟨h1, h2⟩
    have hval : Nat.isValidChar (c.toNat + 32) := Or.inl (by omega)
    cases hu : isAsciiUpper (Char.ofNat (c.toNat + 32))
    · rfl
    · exfalso
      rcases (isAsciiUpper_iff _).mp hu with ⟨g1, g2⟩
      rw [charOfNat_toNat _ hval] at g1 g2
      omega
  · rw [if_neg h]
    exact Bool.not_eq_true _ ▸ (Bool.eq_false_iff.mpr h)

theorem pyLowerChar_eq_self (c : Char) (h : isAsciiUpper c = false) :
    pyLowerChar c = c := by
  unfold pyLowerChar
  rw [h]
  rfl

theorem collapseWs_cons_not_ws (a : Char) (t : List Char) (ha : isPyWs a = false) :
    collapseWs (a :: t) = a :: collapseWs t := by
  cases t with
  | nil => simp [collapseWs, ha]
  | cons b r => simp [collapseWs, ha]

theorem mem_collapseWs : ∀ (l : List Char) (c : Char), c ∈ collapseWs l →
    c = ' ' ∨ (c ∈ l ∧ isPyWs c = false)
  | [], c, h => by simp [collapseWs] at h
  | [a], c, h => by
      by_cases ha : isPyWs a
      · simp [collapseWs, ha] at h
        exact Or.inl h
      · simp [collapseWs, ha] at h
        exact Or.inr ⟨by simp [h], by rw [h]; simpa using ha⟩
  | a :: b :: rest, c, h => by
      by_cases hab : (isPyWs a && isPyWs b) = true
      · rw [show collapseWs (a :: b :: rest) = collapseWs (b :: rest) from by
            simp [collapseWs, hab]] at h
        rcases mem_collapseWs (b :: rest) c h with h' | ⟨hm, hw⟩
        · exact Or.inl h'
        · exact Or.inr ⟨List.mem_cons_of_mem a hm, hw⟩
      · rw [show collapseWs (a :: b :: rest) =
            (if isPyWs a then ' ' else a) :: collapseWs (b :: rest) from by
            simp [collapseWs, hab]] at h
        rcases List.mem_cons.mp h with h' | h'
        · by_cases ha : isPyWs a
          · rw [if_pos ha] at h'
            exact Or.inl h'
          · rw [if_neg ha] at h'
            exact Or.inr ⟨by rw [h']; exact List.mem_cons_self a _,
              by rw [h']; simpa using ha⟩
        · rcases mem_collapseWs (b :: rest) c h' with h'' | ⟨hm, hw⟩
          · exact Or.inl h''
          · exact Or.inr ⟨List.mem_cons_of_mem a hm, hw⟩

theorem chain'_collapseWs : ∀ l : List Char, List.Chain' noWsPair (collapseWs l)
  | [] => by simp [collapseWs]
  | [a] => by
      by_cases ha : isPyWs a <;> simp [collapseWs, ha]
  | a :: b :: rest => by
      by_cases hab : (isPyWs a && isPyWs b) = true
      · rw [show collapseWs (a :: b :: rest) = collapseWs (b :: rest) from by
            simp [collapseWs, hab]]
        exact chain'_collapseWs (b :: rest)
      · rw [show collapseWs (a :: b :: rest) =
            (if isPyWs a then ' ' else a) :: collapseWs (b :: rest) from by
            simp [collapseWs, hab]]
        refine List.chain'_cons'.mpr ⟨?_, chain'_collapseWs (b :: rest)⟩
        intro y hy
        by_cases ha : isPyWs a
        · -- then b is not whitespace, and the head of the tail is exactly b
          have hb : isPyWs b = false := by
            cases hbv : isPyWs b
            · rfl
            · exfalso
              apply hab
              rw [ha, hbv]
              rfl
          rw [collapseWs_cons_not_ws b rest hb] at hy
          simp at hy
          subst hy
          intro hcon
          rw [hb] at hcon
          exact Bool.false_ne_true hcon.2
        · rw [if_neg ha]
          intro hcon
          have := hcon.1
          rw [Bool.eq_false_iff.mpr ha] at this
          exact Bool.false_ne_true this

theorem collapseWs_eq_self : ∀ l : List Char, List.Chain' noWsPair l →
    (∀ c ∈ l, isPyWs c = true → c = ' ') → collapseWs l = l
  | [], _, _ => rfl
  | [a], _, hsp => by
      by_cases ha : isPyWs a
      · simp [collapseWs, ha]
        exact (hsp a (List.mem_singleton_self a) ha).symm
      · simp [collapseWs, ha]
  | a :: b :: rest, hch, hsp => by
      have hab : ¬ (isPyWs a && isPyWs b) = true := by
        intro h
        have h' : isPyWs a = true ∧ isPyWs b = true := by simpa using h
        exact (List.chain'_cons.mp hch).1 ⟨h'.1, h'.2⟩
      rw [show collapseWs (a :: b :: rest) =
          (if isPyWs a then ' ' else a) :: collapseWs (b :: rest) from by
          simp [collapseWs, hab]]
      have htail := collapseWs_eq_self (b :: rest) (List.chain'_cons.mp hch).2
        (fun c hc hw => hsp c (List.mem_cons_of_mem a hc) hw)
      rw [htail]
      by_cases ha : isPyWs a
      · rw [if_pos ha, hsp a (List.mem_cons_self a _) ha]
      · rw [if_neg ha]

theorem chain'_dropWhile {α : Type} (R : α → α → Prop) (p : α → Bool) :
    ∀ l : List α, List.Chain' R l → List.Chain' R (l.dropWhile p)
  | [], _ => by simp
  | a :: t, h => by
      rw [List.dropWhile_cons]
      by_cases hp : p a = true
      · rw [if_pos hp]
        exact chain'_dropWhile R p t (List.Chain'.tail h)
      · rw [if_neg hp]
        exact h

theorem chain'_trimWs (l : List Char) (h : List.Chain' noWsPair l) :
    List.Chain' noWsPair (trimWs l) := by
  unfold trimWs
  have h1 : List.Chain' noWsPair (l.dropWhile isPyWs) :=
    chain'_dropWhile noWsPair isPyWs l h
  have h2 : List.Chain' noWsPair ((l.dropWhile isPyWs).reverse) := by
    rw [List.chain'_reverse]
    exact h1.imp (fun a b hab => fun hc => hab ⟨hc.2, hc.1⟩)
  have h3 : List.Chain' noWsPair (((l.dropWhile isPyWs).reverse).dropWhile isPyWs) :=
    chain'_dropWhile noWsPair isPyWs _ h2
  rw [List.chain'_reverse]
  exact h3.imp (fun a b hab => fun hc => hab ⟨hc.2, hc.1⟩)

theorem mem_trimWs (l : List Char) (c : Char) (h : c ∈ trimWs l) : c ∈ l := by
  unfold trimWs at h
  rw [List.mem_reverse] at h
  have h2 := (List.dropWhile_sublist isPyWs).mem h
  rw [List.mem_reverse] at h2
  exact (List.dropWhile_sublist isPyWs).mem h2

theorem dropWhile_head_false {α : Type} (p : α → Bool) :
    ∀ (l : List α) (c : α), (l.dropWhile p).head? = some c → p c = false
  | [], c, h => by simp at h
  | a :: t, c, h => by
      rw [List.dropWhile_cons] at h
      by_cases hp : p a = true
      · rw [if_pos hp] at h
        exact dropWhile_head_false p t c h
      · rw [if_neg hp] at h
        simp at h
        rw [← h]
        exact Bool.eq_false_iff.mpr hp

theorem dropWhile_eq_self_of_head {α : Type} (p : α → Bool) (l : List α)
    (h : ∀ c, l.head? = some c → p c = false) : l.dropWhile p = l := by
  cases l with
  | nil => rfl
  | cons a t =>
      rw [List.dropWhile_cons, if_neg]
      rw [h a rfl]
      simp

theorem trimWs_getLast_false (l : List Char) (c : Char)
    (h : (trimWs l).getLast? = some c) : isPyWs c = false := by
  unfold trimWs at h
  rw [List.getLast?_reverse] at h
  exact dropWhile_head_false isPyWs _ c h

theorem trimWs_head_false (l : List Char) (c : Char)
    (h : (trimWs l).head? = some c) : isPyWs c = false := by
  unfold trimWs at h
  rw [List.head?_reverse] at h
  set a := l.dropWhile isPyWs with ha
  set b := a.reverse.dropWhile isPyWs with hb
  have hbne : b ≠ [] := by
    intro hbe
    rw [hbe] at h
    simp at h
  obtain ⟨t, ht⟩ := List.dropWhile_suffix (l := a.reverse) isPyWs
  have : a.reverse.getLast? = b.getLast? := by
    rw [← ht]
    exact List.getLast?_append_of_ne_nil t hbne
  rw [List.getLast?_reverse] at this
  rw [h] at this
  exact dropWhile_head_false isPyWs l c this

theorem trimWs_eq_self (l : List Char)
    (hh : ∀ c, l.head? = some c → isPyWs c = false)
    (hl : ∀ c, l.getLast? = some c → isPyWs c = false) : trimWs l = l := by
  unfold trimWs
  rw [dropWhile_eq_self_of_head isPyWs l hh]
  rw [dropWhile_eq_self_of_head isPyWs l.reverse
    (fun c hc => hl c (by rwa [List.head?_reverse] at hc))]
  exact List.reverse_reverse l

theorem out_chars (l : List Char) (c : Char) (h : c ∈ normalizeSeriesChars l) :
    isAsciiLower c = true ∨ isAsciiDigit c = true ∨ c = ' ' := by
  unfold normalizeSeriesChars at h
  by_cases hl : l = []
  · rw [if_pos hl] at h
    simp at h
  · rw [if_neg hl] at h
    have h1 := mem_trimWs _ _ h
    rcases mem_collapseWs _ _ h1 with hsp | ⟨hm, hws⟩
    · exact Or.inr (Or.inr hsp)
    · have hkeep := List.of_mem_filter hm
      have hmem := List.mem_of_mem_filter hm
      rw [List.mem_map] at hmem
      obtain ⟨d, hd1, hd2⟩ := hmem
      rw [List.mem_map] at hd1
      obtain ⟨e, _, he2⟩ := hd1
      have hnu : isAsciiUpper c = false := by
        rw [← hd2, ← he2]
        by_cases hud : (pyLowerChar e = '_' || pyLowerChar e = '-') = true
        · rw [if_pos hud]
          rfl
        · rw [if_neg hud]
          exact pyLowerChar_not_upper e
      rw [show keepSeriesChar c =
          (isAsciiLower c || isAsciiUpper c || isAsciiDigit c || isPyWs c) from rfl]
        at hkeep
      rcases Bool.or_eq_true_iff.mp hkeep with h' | h'
      · rcases Bool.or_eq_true_iff.mp h' with h'' | h''
        · rcases Bool.or_eq_true_iff.mp h'' with h3 | h3
          · exact Or.inl h3
          · rw [hnu] at h3
            exact absurd h3 Bool.false_ne_true
        · exact Or.inr (Or.inl h'')
      · rw [hws] at h'
        exact absurd h' Bool.false_ne_true

theorem lower_not_upper (c : Char) (h : isAsciiLower c = true) :
    isAsciiUpper c = false := by
  cases hu : isAsciiUpper c
  · rfl
  · exfalso
    rcases (isAsciiLower_iff c).mp h with ⟨h1, h2⟩
    rcases (isAsciiUpper_iff c).mp hu with ⟨g1, g2⟩
    omega

theorem digit_not_upper (c : Char) (h : isAsciiDigit c = true) :
    isAsciiUpper c = false := by
  cases hu : isAsciiUpper c
  · rfl
  · exfalso
    rcases (isAsciiDigit_iff c).mp h with ⟨h1, h2⟩
    rcases (isAsciiUpper_iff c).mp hu with ⟨g1, g2⟩
    omega

theorem normalizeSeriesChars_idem (l : List Char) :
    normalizeSeriesChars (normalizeSeriesChars l) = normalizeSeriesChars l := by
  by_cases hl : l = []
  · rw [hl]
    rfl
  · set out := normalizeSeriesChars l with hout_def
    by_cases hout : out = []
    · rw [hout]
      rfl
    · have hchars : ∀ c ∈ out, isAsciiLower c = true ∨ isAsciiDigit c = true ∨ c = ' ' :=
        fun c hc => out_chars l c hc
      have hchain : List.Chain' noWsPair out := by
        rw [hout_def]
        unfold normalizeSeriesChars
        rw [if_neg hl]
        exact chain'_trimWs _ (chain'_collapseWs _)
      have hws_sp : ∀ c ∈ out, isPyWs c = true → c = ' ' := by
        intro c hc hw
        rw [hout_def] at hc
        unfold normalizeSeriesChars at hc
        rw [if_neg hl] at hc
        rcases mem_collapseWs _ _ (mem_trimWs _ _ hc) with h | ⟨_, hnw⟩
        · exact h
        · rw [hnw] at hw
          exact absurd hw Bool.false_ne_true
      have hhead : ∀ c, out.head? = some c → isPyWs c = false := by
        intro c hc
        rw [hout_def] at hc
        unfold normalizeSeriesChars at hc
        rw [if_neg hl] at hc
        exact trimWs_head_false _ _ hc
      have hlast : ∀ c, out.getLast? = some c → isPyWs c = false := by
        intro c hc
        rw [hout_def] at hc
        unfold normalizeSeriesChars at hc
        rw [if_neg hl] at hc
        exact trimWs_getLast_false _ _ hc
      show normalizeSeriesChars out = out
      unfold normalizeSeriesChars
      rw [if_neg hout]
      have hmap1 : out.map pyLowerChar = out := by
        have hfix : ∀ c ∈ out, pyLowerChar c = c := by
          intro c hc
          apply pyLowerChar_eq_self
          rcases hchars c hc with h | h | h
          · exact lower_not_upper c h
          · exact digit_not_upper c h
          · rw [h]
            rfl
        calc out.map pyLowerChar = out.map id := List.map_congr_left hfix
          _ = out := List.map_id out
      have hmap2 : out.map (fun c => if c = '_' || c = '-' then ' ' else c) = out := by
        have hfix : ∀ c ∈ out, (if c = '_' || c = '-' then ' ' else c) = c := by
          intro c hc
          by_cases hcond : (c = '_' || c = '-') = true
          · exfalso
            rcases hchars c hc with h | h | h <;>
              rcases Bool.or_eq_true_iff.mp hcond with h' | h' <;>
                rw [decide_eq_true_eq] at h' <;> rw [h'] at h <;> revert h <;> decide
          · rw [if_neg hcond]
        calc out.map (fun c => if c = '_' || c = '-' then ' ' else c) =
            out.map id := List.map_congr_left hfix
          _ = out := List.map_id out
      have hfilter : out.filter keepSeriesChar = out := by
        rw [List.filter_eq_self]
        intro c hc
        rcases hchars c hc with h | h | h
        · simp [keepSeriesChar, h]
        · simp [keepSeriesChar, h]
        · rw [h]
          rfl
      rw [hmap1, hmap2, hfilter, collapseWs_eq_self out hchain hws_sp,
        trimWs_eq_self out hhead hlast]

/-- C7: `normalize_series` is idempotent and case/separator insensitive
(`normalize_series "Spider-Man_2016" = normalize_series "SPIDER MAN 2016"`),
and performs no year stripping: the year digits remain in the key. -/
theorem normalize_series_idempotent :
    (∀ x : String, normalize_series (normalize_series x) = normalize_series x) ∧
    normalize_series "Spider-Man_2016" = normalize_series "SPIDER MAN 2016" ∧
    normalize_series "Spider-Man_2016" = "spider man 2016" := by
  refine ⟨?_, by decide, by decide⟩
  intro x
  unfold normalize_series
  exact congrArg String.mk (normalizeSeriesChars_idem x.data)

/-!
## Template validation fails fast (claim C8)
-/

set_option maxHeartbeats 1000000 in
/-- C8: the writer validates the template before emitting anything — if
the info/header rows are missing (or empty), their lengths differ, or any
of the four checkpoint columns (*Title at 4, PicURL at 46, *StartPrice at
52, *DispatchTimeMax at 65) does not carry its expected label, then
`write_ebay_csvs` raises an error and produces no output row at all. -/
theorem template_validation_fails_fast (rows : List (List String))
    (ebayRows failedRows : List ComicRecord) (minP : Option Money)
    (h : templateInvalid rows) :
    (writeEbayCsvs rows ebayRows failedRows minP).isOk = false := by
  unfold writeEbayCsvs
  cases hl : loadTemplateRows rows with
  | error e => rfl
  | ok p =>
      exfalso
      unfold loadTemplateRows at hl
      dsimp only at hl
      split_ifs at hl with h1 h2 h3 h4 h5 h6 h7 h8 h9 h10 <;>
        try exact Except.noConfusion hl
      unfold templateInvalid at h
      rcases h with h | h | h | h | h | h | h
      · exact h1 (Or.inl h)
      · exact h1 (Or.inr h)
      · exact h2 h
      · exact h4 h
      · exact h6 h
      · exact h8 h
      · exact h10 h

theorem template_validation_fails_fast_witness :
    templateInvalid [["a"], ["b", "c"]] ∧
    (writeEbayCsvs [["a"], ["b", "c"]] [] [] none).isOk = false :=
  ⟨by decide,
    template_validation_fails_fast [["a"], ["b", "c"]] [] [] none (by decide)⟩

/-!
## Fixed-value overlay wins; protected column stays blank (claim C9)
-/

theorem applyUpdates_length (n : Nat) :
    ∀ (pairs : List (Nat × String)) (l : List String),
      (applyUpdates n l pairs).length = l.length
  | [], _ => rfl
  | p :: rest, l => by
      unfold applyUpdates
      rw [List.foldl_cons]
      by_cases hp : p.1 < n
      · rw [if_pos hp]
        have := applyUpdates_length n rest (l.set p.1 p.2)
        unfold applyUpdates at this
        rw [this, List.length_set]
      · rw [if_neg hp]
        exact applyUpdates_length n rest l

theorem applyUpdates_getElem_notmem (n : Nat) :
    ∀ (pairs : List (Nat × String)) (l : List String) (idx : Nat),
      idx ∉ pairs.map Prod.fst → (applyUpdates n l pairs)[idx]? = l[idx]?
  | [], _, _, _ => rfl
  | p :: rest, l, idx, hmem => by
      rw [List.map_cons] at hmem
      have hne : p.1 ≠ idx := by
        intro hcon
        apply hmem
        rw [hcon]
        exact List.mem_cons_self idx _
      have hrest : idx ∉ rest.map Prod.fst := fun hc =>
        hmem (List.mem_cons_of_mem _ hc)
      unfold applyUpdates
      rw [List.foldl_cons]
      by_cases hp : p.1 < n
      · rw [if_pos hp]
        have := applyUpdates_getElem_notmem n rest (l.set p.1 p.2) idx hrest
        unfold applyUpdates at this
        rw [this, List.getElem?_set, if_neg hne]
      · rw [if_neg hp]
        exact applyUpdates_getElem_notmem n rest l idx hrest

theorem applyUpdates_getElem_mem (n : Nat) :
    ∀ (pairs : List (Nat × String)) (l : List String) (idx : Nat) (val : String),
      (pairs.map Prod.fst).Nodup → (idx, val) ∈ pairs → idx < n → idx < l.length →
      (applyUpdates n l pairs)[idx]? = some val
  | [], _, _, _, _, hmem, _, _ => absurd hmem (List.not_mem_nil _)
  | p :: rest, l, idx, val, hnd, hmem, hn, hl => by
      rw [List.map_cons] at hnd
      have hnd' := List.nodup_cons.mp hnd
      unfold applyUpdates
      rw [List.foldl_cons]
      rcases List.mem_cons.mp hmem with hp | hp
      · rw [← hp]
        rw [if_pos hn]
        have hnotin : idx ∉ rest.map Prod.fst := by
          have := hnd'.1
          rw [← hp] at this
          exact this
        have := applyUpdates_getElem_notmem n rest (l.set idx val) idx hnotin
        unfold applyUpdates at this
        rw [this, List.getElem?_set, if_pos rfl, if_pos hl]
      · by_cases hpn : p.1 < n
        · rw [if_pos hpn]
          exact applyUpdates_getElem_mem n rest (l.set p.1 p.2) idx val
            hnd'.2 hp hn (by rw [List.length_set]; exact hl)
        · rw [if_neg hpn]
          exact applyUpdates_getElem_mem n rest l idx val hnd'.2 hp hn hl

theorem buildEbayRow_length (c : ComicRecord) (n : Nat) (minP : Option Money) :
    (buildEbayRow c n minP).length = n := by
  unfold buildEbayRow
  simp only [List.length_set, applyUpdates_length, List.length_replicate]

set_option maxHeartbeats 2000000 in
theorem buildEbayRow_fixed (c : ComicRecord) (n : Nat) (minP : Option Money)
    (idx : Nat) (val : String) (hmem : (idx, val) ∈ FIXED_BY_COLUMN_INDEX)
    (hn : idx < n) : (buildEbayRow c n minP)[idx]? = some val := by
  have hne65 : idx ≠ 65 := by
    have : ∀ p ∈ FIXED_BY_COLUMN_INDEX, p.1 ≠ 65 := by decide
    exact this (idx, val) hmem
  have hnd : (FIXED_BY_COLUMN_INDEX.map Prod.fst).Nodup := by decide
  unfold buildEbayRow
  rw [List.getElem?_set, if_neg (fun hc => hne65 hc.symm)]
  apply applyUpdates_getElem_mem n FIXED_BY_COLUMN_INDEX _ idx val hnd hmem hn
  simp only [List.length_set, applyUpdates_length, List.length_replicate]
  exact hn

theorem buildEbayRow_dispatch_blank (c : ComicRecord) (n : Nat)
    (minP : Option Money) (hn : 65 < n) : (buildEbayRow c n minP)[65]? = some "" := by
  unfold buildEbayRow
  rw [List.getElem?_set, if_pos rfl, if_pos]
  simp only [List.length_set, applyUpdates_length, List.length_replicate]
  exact hn

set_option maxHeartbeats 1000000 in
theorem loadTemplateRows_header (rows : List (List String))
    (info headers : List String)
    (h : loadTemplateRows rows = Except.ok (info, headers)) : 65 < headers.length := by
  unfold loadTemplateRows at h
  dsimp only at h
  split_ifs at h with h1 h2 h3 h4 h5 h6 h7 h8 h9 h10 <;>
    try exact Except.noConfusion h
  have hinj : rows.getD 1 [] = headers := by
    have := Except.ok.inj h
    exact congrArg Prod.snd this
  rw [hinj] at h9
  omega

/-- C9: in every data row the ready CSV emits, each column position listed
in the fixed-value table carries its fixed literal value (the fixed
overlay is applied last and wins over all dynamic content), and the
protected *DispatchTimeMax column (index 65) is blank. -/
theorem fixed_overlay_wins (template : List (List String))
    (ebayRows failedRows : List ComicRecord) (minP : Option Money)
    (ready failedT : List (List String))
    (hok : writeEbayCsvs template ebayRows failedRows minP =
      Except.ok (ready, failedT))
    (r : List String) (hr : r ∈ ready.drop 2) :
    (∀ (idx : Nat) (val : String), (idx, val) ∈ FIXED_BY_COLUMN_INDEX →
      idx < r.length → r[idx]? = some val) ∧
    65 < r.length ∧ r[65]? = some "" := by
  unfold writeEbayCsvs at hok
  cases hl : loadTemplateRows template with
  | error e =>
      rw [hl] at hok
      exact Except.noConfusion hok
  | ok ih =>
      rw [hl] at hok
      have hready : ready = ih.1 :: ih.2 ::
          ebayRows.map (fun c => buildEbayRow c ih.2.length minP) := by
        have := Except.ok.inj hok
        exact (congrArg Prod.fst this).symm
      rw [hready] at hr
      simp only [List.drop_succ_cons, List.drop_zero] at hr
      rw [List.mem_map] at hr
      obtain ⟨c, _, hc⟩ := hr
      have h65 : 65 < ih.2.length := loadTemplateRows_header template ih.1 ih.2
        (by rw [hl])
      have hlen : r.length = ih.2.length := by
        rw [← hc]
        exact buildEbayRow_length c ih.2.length minP
      refine ⟨?_, ?_, ?_⟩
      · intro idx val hmem hidx
        rw [← hc]
        exact buildEbayRow_fixed c ih.2.length minP idx val hmem
          (by rw [← hlen]; exact hidx)
      · rw [hlen]
        exact h65
      · rw [← hc]
        exact buildEbayRow_dispatch_blank c ih.2.length minP h65

set_option maxRecDepth 20000 in
set_option maxHeartbeats 4000000 in
theorem fixed_overlay_wins_witness :
    writeEbayCsvs validTemplateRows [sampleMatchedComic] [] none =
      Except.ok (sampleReadyTable, sampleReadyFailedTable) ∧
    sampleReadyRow ∈ sampleReadyTable.drop 2 ∧
    ((65 : Nat), "") ∉ FIXED_BY_COLUMN_INDEX ∧
    ((0 : Nat), "Add ") ∈ FIXED_BY_COLUMN_INDEX ∧ 0 < sampleReadyRow.length ∧
    sampleReadyRow[0]? = some "Add " ∧
    65 < sampleReadyRow.length ∧ sampleReadyRow[65]? = some "" := by
  have hok : writeEbayCsvs validTemplateRows [sampleMatchedComic] [] none =
      Except.ok (sampleReadyTable, sampleReadyFailedTable) := by rfl
  have hmem : sampleReadyRow ∈ sampleReadyTable.drop 2 := by decide
  have hth := fixed_overlay_wins validTemplateRows [sampleMatchedComic] [] none
    sampleReadyTable sampleReadyFailedTable hok sampleReadyRow hmem
  exact ⟨hok, hmem, by decide, by decide, by decide,
    hth.1 0 "Add " (by decide) (by decide), hth.2.1, hth.2.2⟩

/-!
## CLZ issue-cell parsing (claim C10)
-/

theorem ws_not_digit (c : Char) (h : isPyWs c = true) : isAsciiDigit c = false := by
  unfold isPyWs at h
  simp only [Bool.or_eq_true, decide_eq_true_eq] at h
  rcases h with ((((h | h) | h) | h) | h) | h <;> rw [h] <;> rfl

theorem mem_dropWhile_of_false {α : Type} (p : α → Bool) :
    ∀ (l : List α) (c : α), c ∈ l → p c = false → c ∈ l.dropWhile p
  | [], c, hc, _ => absurd hc (List.not_mem_nil c)
  | a :: t, c, hc, hp => by
      rw [List.dropWhile_cons]
      by_cases hpa : p a = true
      · rw [if_pos hpa]
        rcases List.mem_cons.mp hc with h | h
        · rw [h, hpa] at hp
          exact Bool.noConfusion hp
        · exact mem_dropWhile_of_false p t c h hp
      · rw [if_neg hpa]
        exact hc

/-!
## CLZ issue parsing: digit detection and suffix (claim C10, continued)
-/

theorem digit_not_ws (c : Char) (h : isAsciiDigit c = true) : isPyWs c = false := by
  cases hw : isPyWs c
  · rfl
  · rw [ws_not_digit c hw] at h
    exact Bool.noConfusion h

theorem mem_trimWs_of_digit (l : List Char) (c : Char) (hc : c ∈ l)
    (hd : isAsciiDigit c = true) : c ∈ trimWs l := by
  have hws : isPyWs c = false := digit_not_ws c hd
  unfold trimWs
  rw [List.mem_reverse]
  apply mem_dropWhile_of_false _ _ _ _ hws
  rw [List.mem_reverse]
  exact mem_dropWhile_of_false _ _ _ hc hws

theorem hasDigit_iff_rest_ne (s : String) :
    s.data.any isAsciiDigit = true ↔
    (trimWs s.data).dropWhile (fun c => ¬ isAsciiDigit c) ≠ [] := by
  constructor
  · intro h hnil
    rcases List.any_eq_true.mp h with ⟨c, hc, hdig⟩
    have hmem : c ∈ trimWs s.data := mem_trimWs_of_digit s.data c hc hdig
    have := List.dropWhile_eq_nil_iff.mp hnil c hmem
    rw [decide_eq_true_eq] at this
    exact this hdig
  · intro h
    cases hr : (trimWs s.data).dropWhile (fun c => ¬ isAsciiDigit c) with
    | nil => exact absurd hr h
    | cons c t =>
        have hhead : ((trimWs s.data).dropWhile
            (fun c => ¬ isAsciiDigit c)).head? = some c := by rw [hr]; rfl
        have hdf := dropWhile_head_false _ _ _ hhead
        have hdig : isAsciiDigit c = true := not_not.mp (of_decide_eq_false hdf)
        have hmem : c ∈ s.data := mem_trimWs _ _
          ((List.dropWhile_sublist _).mem (hr ▸ List.mem_cons_self c t))
        exact List.any_eq_true.mpr ⟨c, hmem, hdig⟩

theorem parseIssueCell_eq (s : String) :
    parseIssueCell s =
      (if cellHasDigit s = true then
        (some (digitsToNat (firstDigitRun s)), letterAfterFirstDigitRun s)
      else (none, "")) := by
  unfold parseIssueCell cellHasDigit firstDigitRun letterAfterFirstDigitRun
  by_cases hs : s = ""
  · rw [hs]
    decide
  · rw [if_neg hs]
    by_cases hrest : (trimWs s.data).dropWhile (fun c => ¬ isAsciiDigit c) = []
    · rw [if_pos hrest]
      have hd : ¬ s.data.any isAsciiDigit = true := by
        intro h
        exact (hasDigit_iff_rest_ne s).mp h hrest
      rw [if_neg hd]
    · rw [if_neg hrest]
      rw [if_pos ((hasDigit_iff_rest_ne s).mpr hrest)]

/-- C10 (amended): for every catalog row, the record is FAILED with
reason UNPARSEABLE_ISSUE (issue number 0, empty suffix) iff the issue
cell contains no decimal digit; when a digit is present anywhere, the
first digit run becomes the issue number and the single letter optionally
following it becomes the upper-cased suffix UNLESS a non-empty Variant
column value overrides it, and the record enters allocation as
PENDING. -/
theorem clz_issue_parsing (header row : List String) (idn : Nat) :
    (cellHasDigit (safeCell header row "Issue Nr") = false →
      (buildComic idn header row).status = "FAILED" ∧
      (buildComic idn header row).failure_reason = "UNPARSEABLE_ISSUE" ∧
      (buildComic idn header row).issue_number = 0 ∧
      (buildComic idn header row).issue_suffix = "") ∧
    (cellHasDigit (safeCell header row "Issue Nr") = true →
      (buildComic idn header row).status = "PENDING" ∧
      (buildComic idn header row).failure_reason = "" ∧
      (buildComic idn header row).issue_number =
        digitsToNat (firstDigitRun (safeCell header row "Issue Nr")) ∧
      (buildComic idn header row).issue_suffix =
        (if pyUpper (safeCell header row "Variant") = ""
         then letterAfterFirstDigitRun (safeCell header row "Issue Nr")
         else pyUpper (safeCell header row "Variant"))) := by
  constructor
  · intro h
    unfold buildComic
    dsimp only
    rw [parseIssueCell_eq]
    rw [h]
    simp only [Bool.false_eq_true, if_false]
    exact ⟨by trivial, by trivial, by trivial, by trivial⟩
  · intro h
    unfold buildComic
    dsimp only
    rw [parseIssueCell_eq]
    rw [h]
    simp only [if_true]
    exact ⟨by trivial, by trivial, by trivial, by trivial⟩

/-- C10 counterexample: with a non-empty Variant column, the upper-cased
letter following the digits in the issue cell does NOT become the
record's suffix — the Variant value overrides it ("B", not "A", for
issue cell "12a" with Variant "b"). -/
theorem variant_overrides_issue_letter_counterexample :
    (buildComic 1 ["Series", "Issue Nr", "Variant"] ["Batman", "12a", "b"]).issue_number
      = 12 ∧
    (buildComic 1 ["Series", "Issue Nr", "Variant"] ["Batman", "12a", "b"]).issue_suffix
      = "B" ∧
    letterAfterFirstDigitRun "12a" = "A" ∧
    ¬ (buildComic 1 ["Series", "Issue Nr", "Variant"] ["Batman", "12a", "b"]).issue_suffix
      = "A" := by decide

theorem clz_issue_parsing_witness :
    cellHasDigit (safeCell ["Series", "Issue Nr"] ["X", "7z"] "Issue Nr") = true ∧
    ((buildComic 1 ["Series", "Issue Nr"] ["X", "7z"]).status = "PENDING" ∧
      (buildComic 1 ["Series", "Issue Nr"] ["X", "7z"]).failure_reason = "" ∧
      (buildComic 1 ["Series", "Issue Nr"] ["X", "7z"]).issue_number =
        digitsToNat (firstDigitRun (safeCell ["Series", "Issue Nr"] ["X", "7z"]
          "Issue Nr")) ∧
      (buildComic 1 ["Series", "Issue Nr"] ["X", "7z"]).issue_suffix =
        (if pyUpper (safeCell ["Series", "Issue Nr"] ["X", "7z"] "Variant") = ""
         then letterAfterFirstDigitRun (safeCell ["Series", "Issue Nr"] ["X", "7z"]
           "Issue Nr")
         else pyUpper (safeCell ["Series", "Issue Nr"] ["X", "7z"] "Variant"))) :=
  ⟨by decide, (clz_issue_parsing ["Series", "Issue Nr"] ["X", "7z"] 1).2 (by decide)⟩

end BCX
